import Mathlib

/-!
Verification of the daily technical-metrics calculation engine of the
grindingalpha screener (`backend/app/services/calculators/daily_metrics_calculator.py`).

The Python engine works on pandas DataFrames of daily OHLCV bars and builds, for
one target date, a flat record of ~64 indicator fields per symbol.  We embed it
shallowly: a DataFrame row is a `Bar`, float arithmetic is idealised as `ℚ`
(the single irrational operation, the Bollinger standard deviation's square
root, is modelled in `ℝ`), Python `None`/NaN-able floats are `Option ℚ`, and
the one statement that can raise (`int(volume_50d_avg)` on an all-NaN window)
is modelled with `Except`.  Python truthiness tests on floats (`if x:`) are
modelled as "not `None` and not `0`".
-/

namespace Screener

set_option maxRecDepth 4000

/-- One OHLCV row: `{symbol, date, open, high, low, close, volume}`.  Dates are
ordinals (trading-day numbers); volume is nullable (indices). -/
structure Bar where
  symbol : String
  date : ℕ
  open_price : ℚ
  high : ℚ
  low : ℚ
  close : ℚ
  volume : Option ℚ
deriving DecidableEq

/-- `df.loc[i]` on a reset-index frame: positional row access (total, with a
junk default that is never hit at in-range indices). -/
def bar (df : List Bar) (i : ℕ) : Bar := df.getD i ⟨"", 0, 0, 0, 0, 0, none⟩

/-- `df.loc[a:b]` with a pandas RangeIndex: label slicing, INCLUSIVE of both
endpoints. -/
def sliceIncl (l : List Bar) (a b : ℕ) : List Bar := (l.drop a).take (b + 1 - a)

/-- Sub-list of positions `a..b` (inclusive) of a plain list. -/
def sliceList (l : List ℕ) (a b : ℕ) : List ℕ := (l.drop a).take (b + 1 - a)

/-- `pandas .mean()` of a non-empty numeric series (call sites guard emptiness). -/
def listMean (l : List ℚ) : ℚ := l.sum / (l.length : ℚ)

/-- `.max()` of a series (call sites guard emptiness). -/
def listMax (l : List ℚ) : ℚ :=
  match l with
  | [] => 0
  | x :: xs => xs.foldl max x

/-- `.min()` of a series (call sites guard emptiness). -/
def listMin (l : List ℚ) : ℚ :=
  match l with
  | [] => 0
  | x :: xs => xs.foldl min x

/-- `np.diff`: consecutive differences `x[i+1] - x[i]`. -/
def diffs (l : List ℚ) : List ℚ := (l.zip l.tail).map (fun p => p.2 - p.1)

/-- `series.ewm(span=s, adjust=False).mean().iloc[-1]`: the recursive
exponentially weighted mean `y0 = x0`, `y i = (1-α) * y (i-1) + α * x i` with
`α = 2/(span+1)`, returning the last value.  (Empty series never occur at call
sites.) -/
def ewmMean (span : ℕ) (l : List ℚ) : ℚ :=
  match l with
  | [] => 0
  | x :: xs =>
    let a : ℚ := 2 / ((span : ℚ) + 1)
    xs.foldl (fun acc y => (1 - a) * acc + a * y) x

/-- Python 3 `round` to an integer: banker's rounding (round half to even). -/
def roundHalfEven (q : ℚ) : ℤ :=
  if q - ⌊q⌋ = 1 / 2 then (if ⌊q⌋ % 2 = 0 then ⌊q⌋ else ⌊q⌋ + 1) else round q

/-- Python `round(x, n)` on our idealised rationals. -/
def pyRound (q : ℚ) (n : ℕ) : ℚ := (roundHalfEven (q * 10 ^ n) : ℚ) / 10 ^ n

/-- Python `int()` on a float: truncation toward zero. -/
def pyInt (q : ℚ) : ℤ := if 0 ≤ q then ⌊q⌋ else -⌊-q⌋

open Classical in
/-- Python 3 `round` to an integer on `ℝ` (for the Bollinger fields). -/
noncomputable def roundHalfEvenR (x : ℝ) : ℤ :=
  if x - ⌊x⌋ = 1 / 2 then (if ⌊x⌋ % 2 = 0 then ⌊x⌋ else ⌊x⌋ + 1) else round x

/-- Python `round(x, n)` on `ℝ`. -/
noncomputable def pyRoundR (x : ℝ) (n : ℕ) : ℝ := (roundHalfEvenR (x * 10 ^ n) : ℝ) / 10 ^ n

/-- Python truthiness of an optional float: `None` and `0.0` are falsy. -/
def truthyOpt (o : Option ℚ) : Bool :=
  match o with
  | none => false
  | some v => if v = 0 then false else true

/-- The recurring Python idiom `float(x) if x else None` applied to an optional
float: a present zero collapses to `None`. -/
def storeOpt (o : Option ℚ) : Option ℚ :=
  match o with
  | none => none
  | some v => if v = 0 then none else some v

/-- The idiom `float(x) if x else None` applied to a plain float. -/
def pyOptFloat (q : ℚ) : Option ℚ := if q = 0 then none else some q

/-! ## Per-indicator calculators (one `def` per `_calc_*` method) -/

/-- Result shape of `_calc_price_changes`. -/
structure PriceChanges where
  change_1d_percent : Option ℚ
  change_1w_percent : Option ℚ
  change_1m_percent : Option ℚ
  change_3m_percent : Option ℚ
  change_6m_percent : Option ℚ
  change_1d_value : Option ℚ
deriving DecidableEq

/-- `_calc_price_changes`: % change vs the close `n` bars back for
`n ∈ {1,5,21,63,126}` (null when `idx - n < 0`, `0` when the past close is not
positive), plus the 1-day absolute change. -/
def calc_price_changes (df : List Bar) (idx : ℕ) : PriceChanges :=
  let close := (bar df idx).close
  let pct := fun (days : ℕ) =>
    if days ≤ idx then
      let prev := (bar df (idx - days)).close
      some (if 0 < prev then (close - prev) / prev * 100 else 0)
    else none
  { change_1d_percent := pct 1
    change_1w_percent := pct 5
    change_1m_percent := pct 21
    change_3m_percent := pct 63
    change_6m_percent := pct 126
    change_1d_value := if 0 < idx then some (close - (bar df (idx - 1)).close) else none }

/-- `_calc_atr`: mean of the trailing `period` true ranges (0 when
`idx < period`); the previous close falls back to the row's own open at `i = 0`. -/
def calc_atr (df : List Bar) (idx : ℕ) (period : ℕ) : ℚ :=
  if idx < period then 0
  else
    let true_ranges := (List.range' (idx - period + 1) period).map (fun i =>
      let h := (bar df i).high
      let l := (bar df i).low
      let prev_close := if 0 < i then (bar df (i - 1)).close else (bar df i).open_price
      max (h - l) (max |h - prev_close| |l - prev_close|))
    listMean true_ranges

/-- `_calc_adr`: mean over the trailing `period` bars of `(high-low)/close*100`
(0 when `idx < period`; each day's term is 0 when its close is not positive). -/
def calc_adr (df : List Bar) (idx : ℕ) (period : ℕ) : ℚ :=
  if idx < period then 0
  else
    let ranges := (List.range' (idx - period + 1) period).map (fun i =>
      let b := bar df i
      if 0 < b.close then (b.high - b.low) / b.close * 100 else 0)
    listMean ranges

/-- Result shape of `_calc_volatility`. -/
structure Volatility where
  atr_14 : Option ℚ
  atr_percent : ℚ
  adr_percent : ℚ
  today_range_percent : ℚ
deriving DecidableEq

/-- `_calc_volatility`: ATR-14 (stored through float-truthiness, so an exact 0
becomes null), `ATR% = ATR/close*100`, 20-day ADR%, and today's range %. -/
def calc_volatility (df : List Bar) (idx : ℕ) : Volatility :=
  let atr_14 := calc_atr df idx 14
  let b := bar df idx
  let atr_percent := if 0 < b.close ∧ ¬ atr_14 = 0 then atr_14 / b.close * 100 else 0
  let adr_pct := calc_adr df idx 20
  let today_range := if 0 < b.close then (b.high - b.low) / b.close * 100 else 0
  { atr_14 := pyOptFloat atr_14
    atr_percent := atr_percent
    adr_percent := adr_pct
    today_range_percent := today_range }

/-- Result shape of `_calc_volume_metrics`. -/
structure VolumeMetrics where
  volume_50d_avg : Option ℤ
  rvol : Option ℚ
  is_volume_surge : ℤ
deriving DecidableEq

/-- `_calc_volume_metrics`: 50-day average volume (pandas `mean` skips NaN, and
`int(...)` RAISES when every volume in the window is null), RVOL =
today/average (NaN — modelled `none` — when today's volume is null and the
average is positive), and the `RVOL ≥ 1.5` surge flag (false on NaN). -/
def calc_volume_metrics (df : List Bar) (idx : ℕ) : Except String VolumeMetrics :=
  if idx < 50 then .ok ⟨none, none, 0⟩
  else
    let window := (sliceIncl df (idx - 50) (idx - 1)).filterMap (fun b => b.volume)
    if window = [] then .error "cannot convert float NaN to integer"
    else
      let avg := listMean window
      match (bar df idx).volume with
      | none =>
        if 0 < avg then .ok ⟨some (pyInt avg), none, 0⟩
        else .ok ⟨some (pyInt avg), some 0, 0⟩
      | some v =>
        let rvol := if 0 < avg then v / avg else 0
        .ok ⟨some (pyInt avg), some rvol, if (3 / 2 : ℚ) ≤ rvol then 1 else 0⟩

/-- Result shape of `_calc_moving_averages`. -/
structure MovingAverages where
  ema_10 : Option ℚ
  sma_20 : Option ℚ
  sma_50 : Option ℚ
  sma_100 : Option ℚ
  sma_200 : Option ℚ
  distance_from_ema10_percent : Option ℚ
  distance_from_sma50_percent : Option ℚ
  distance_from_sma200_percent : Option ℚ
  is_ma_stacked : ℤ
deriving DecidableEq

/-- `_calc_moving_averages`: EMA-10 and SMA-20/50/100/200 over the pandas
`loc[idx-n : idx]` windows (INCLUSIVE slices, hence `n+1` bars each), null when
`idx < n`; distance-from-MA fields; the strict MA-stacking flag.  All the
optional outputs pass through float-truthiness (`x if x else None`). -/
def calc_moving_averages (df : List Bar) (idx : ℕ) : MovingAverages :=
  let close := (bar df idx).close
  let ema_10 : Option ℚ :=
    if 10 ≤ idx then some (ewmMean 10 ((sliceIncl df (idx - 10) idx).map (·.close))) else none
  let sma_20 : Option ℚ :=
    if 20 ≤ idx then some (listMean ((sliceIncl df (idx - 20) idx).map (·.close))) else none
  let sma_50 : Option ℚ :=
    if 50 ≤ idx then some (listMean ((sliceIncl df (idx - 50) idx).map (·.close))) else none
  let sma_100 : Option ℚ :=
    if 100 ≤ idx then some (listMean ((sliceIncl df (idx - 100) idx).map (·.close))) else none
  let sma_200 : Option ℚ :=
    if 200 ≤ idx then some (listMean ((sliceIncl df (idx - 200) idx).map (·.close))) else none
  let dist := fun (ma : Option ℚ) =>
    if truthyOpt ma then some ((close - ma.getD 0) / ma.getD 0 * 100) else none
  let is_stacked : ℤ :=
    if truthyOpt ema_10 ∧ truthyOpt sma_20 ∧ truthyOpt sma_50 ∧ truthyOpt sma_100 ∧
        truthyOpt sma_200 then
      if sma_200.getD 0 < sma_100.getD 0 ∧ sma_100.getD 0 < sma_50.getD 0 ∧
          sma_50.getD 0 < sma_20.getD 0 ∧ sma_20.getD 0 < ema_10.getD 0 ∧
          ema_10.getD 0 < close then 1 else 0
    else 0
  { ema_10 := storeOpt ema_10
    sma_20 := storeOpt sma_20
    sma_50 := storeOpt sma_50
    sma_100 := storeOpt sma_100
    sma_200 := storeOpt sma_200
    distance_from_ema10_percent := storeOpt (dist ema_10)
    distance_from_sma50_percent := storeOpt (dist sma_50)
    distance_from_sma200_percent := storeOpt (dist sma_200)
    is_ma_stacked := is_stacked }

/-- Result shape of `_calc_atr_extension`. -/
structure AtrExtension where
  atr_extension_from_sma50 : Option ℚ
  lod_atr_percent : Option ℚ
  is_lod_tight : ℤ
deriving DecidableEq

/-- `_calc_atr_extension`: `((close/SMA50)-1)/(ATR14/close)` and
`(low-close)/ATR14*100`, both guarded by float-truthiness of the already
stored `sma_50`/`atr_14` fields and stored through truthiness again (an exact
0 becomes null). -/
def calc_atr_extension (df : List Bar) (idx : ℕ) (sma_50 atr_14 : Option ℚ) : AtrExtension :=
  let close := (bar df idx).close
  let low := (bar df idx).low
  let atr_ext : Option ℚ :=
    if truthyOpt sma_50 ∧ truthyOpt atr_14 ∧ 0 < close then
      some (if 0 < atr_14.getD 0 then
        ((close / sma_50.getD 0) - 1) / (atr_14.getD 0 / close) else 0)
    else none
  let lod_atr_pct : Option ℚ :=
    if truthyOpt atr_14 then
      some (if 0 < atr_14.getD 0 then (low - close) / atr_14.getD 0 * 100 else 0)
    else none
  let is_lod_tight : ℤ :=
    if truthyOpt atr_14 then (if |lod_atr_pct.getD 0| < 60 then 1 else 0) else 0
  { atr_extension_from_sma50 := storeOpt atr_ext
    lod_atr_percent := storeOpt lod_atr_pct
    is_lod_tight := is_lod_tight }

/-- Result shape of `_calc_darvas`. -/
structure Darvas where
  darvas_20d_high : Option ℚ
  darvas_20d_low : Option ℚ
  darvas_position_percent : Option ℚ
deriving DecidableEq

/-- `_calc_darvas`: 20-day box over `loc[idx-20 : idx]` (21 bars, inclusive
slice) and the position of the close inside it (50 on a zero-width box). -/
def calc_darvas (df : List Bar) (idx : ℕ) : Darvas :=
  if idx < 20 then ⟨none, none, none⟩
  else
    let box := sliceIncl df (idx - 20) idx
    let darvas_high := listMax (box.map (·.high))
    let darvas_low := listMin (box.map (·.low))
    let close := (bar df idx).close
    let range_span := darvas_high - darvas_low
    let position := if 0 < range_span then (close - darvas_low) / range_span * 100 else 50
    ⟨some darvas_high, some darvas_low, some position⟩

/-- Result shape of `_calc_new_highs_lows`. -/
structure NewHighsLows where
  is_new_20d_high : ℤ
  is_new_20d_low : ℤ
deriving DecidableEq

/-- `_calc_new_highs_lows`: is today's high ≥ the max high (resp. low ≤ the min
low) of the 20 PRIOR bars `loc[idx-20 : idx-1]`. -/
def calc_new_highs_lows (df : List Bar) (idx : ℕ) : NewHighsLows :=
  if idx < 20 then ⟨0, 0⟩
  else
    let priors := sliceIncl df (idx - 20) (idx - 1)
    let high_20d := listMax (priors.map (·.high))
    let low_20d := listMin (priors.map (·.low))
    ⟨if high_20d ≤ (bar df idx).high then 1 else 0,
     if (bar df idx).low ≤ low_20d then 1 else 0⟩

/-- `_calc_vcp_score`: over the trailing 5 bars' `(high-low)` ranges, count the
positions `i ∈ 1..4` with `ranges[i] < ranges[i-1]`, capped with `min · 5`
(0 when `idx < 5`). -/
def calc_vcp_score (df : List Bar) (idx : ℕ) : ℕ :=
  if idx < 5 then 0
  else
    let ranges := (sliceIncl df (idx - 4) idx).map (fun b => b.high - b.low)
    let narrowing_count :=
      (List.range' 1 (ranges.length - 1)).countP (fun i => ranges.getD i 0 < ranges.getD (i - 1) 0)
    min narrowing_count 5

/-- Result shape of `_calc_stage`. -/
structure StageResult where
  stage : ℕ
  stage_detail : String
deriving DecidableEq

/-- `_calc_stage`: the Weinstein decision tree over the STORED `sma_50`,
`sma_200`, `darvas_position_percent` and `atr_extension_from_sma50` fields,
with Python truthiness on each guard. -/
def calc_stage (df : List Bar) (idx : ℕ)
    (sma_50 sma_200 darvas_position atr_ext : Option ℚ) : StageResult :=
  let close := (bar df idx).close
  if truthyOpt sma_50 ∧ truthyOpt sma_200 then
    if sma_50.getD 0 < close ∧ sma_200.getD 0 < close then
      if truthyOpt darvas_position ∧ 90 ≤ darvas_position.getD 0 then ⟨2, "2B"⟩
      else if truthyOpt atr_ext ∧ 7 ≤ atr_ext.getD 0 then ⟨2, "2C"⟩
      else ⟨2, "2A"⟩
    else if close < sma_50.getD 0 ∧ close < sma_200.getD 0 then ⟨4, "4"⟩
    else ⟨3, "3"⟩
  else ⟨1, "1"⟩

/-- Result shape of `_calc_rrg_metrics`. -/
structure RrgMetrics where
  rs_ratio : ℚ
  rs_momentum : ℚ
deriving DecidableEq

/-- `_calc_rrg_metrics`: the single-symbol proxy — weekly ratio × 100 and the
weekly % change, both rounded to 2 digits (defaults `(100, 0)` before 10 bars). -/
def calc_rrg_metrics (df : List Bar) (idx : ℕ) : RrgMetrics :=
  if idx < 10 then ⟨100, 0⟩
  else
    let close := (bar df idx).close
    let close_1w := if 5 ≤ idx then (bar df (idx - 5)).close else close
    let ratio_change := if 0 < close_1w then close / close_1w else 1
    let rs_momentum := if 0 < close_1w then (close - close_1w) / close_1w * 100 else 0
    ⟨pyRound (ratio_change * 100) 2, pyRound rs_momentum 2⟩

/-- Result shape of `_calc_rsi`. -/
structure RsiResult where
  rsi_14 : Option ℚ
  rsi_oversold : ℤ
  rsi_overbought : ℤ
deriving DecidableEq

/-- `_calc_rsi`: simple means of the gains/losses of the 14 trailing
close-to-close changes (the source collapses Wilder smoothing to a plain mean
in both branches); `RSI = 100` when the average loss is 0. -/
def calc_rsi (df : List Bar) (idx : ℕ) : RsiResult :=
  if idx < 14 then ⟨none, 0, 0⟩
  else
    let closes := (sliceIncl df (idx - 14) idx).map (·.close)
    let changes := diffs closes
    let gains := changes.map (fun c => if 0 < c then c else 0)
    let losses := changes.map (fun c => if c < 0 then -c else 0)
    let avg_gain := listMean gains
    let avg_loss := listMean losses
    let rsi := if avg_loss = 0 then 100 else 100 - 100 / (1 + avg_gain / avg_loss)
    ⟨some (pyRound rsi 4), if rsi < 30 then 1 else 0, if 70 < rsi then 1 else 0⟩

/-- Result shape of `_calc_macd`. -/
structure MacdResult where
  macd_line : Option ℚ
  macd_signal : Option ℚ
  macd_histogram : Option ℚ
  is_macd_bullish_cross : ℤ
  is_macd_bearish_cross : ℤ
deriving DecidableEq

/-- The MACD line at a position: EMA-12 minus EMA-26 of the whole close prefix
`loc[:i]`. -/
def macdLineAt (df : List Bar) (i : ℕ) : ℚ :=
  let c := (df.take (i + 1)).map (·.close)
  ewmMean 12 c - ewmMean 26 c

/-- `_calc_macd`: MACD(12,26,9).  Null before 26 bars; signal/histogram null
before 35; the signal is the EWM-9 of the MACD values over positions
`max 26 (idx-9) .. idx`; cross flags compare the previous bar (only when
`idx > 35`). -/
def calc_macd (df : List Bar) (idx : ℕ) : MacdResult :=
  if idx < 26 then ⟨none, none, none, 0, 0⟩
  else
    let macd_line := macdLineAt df idx
    if idx < 35 then ⟨some (pyRound macd_line 4), none, none, 0, 0⟩
    else
      let start := max 26 (idx - 9)
      let macd_values := (List.range' start (idx + 1 - start)).map (macdLineAt df)
      let signal_line := ewmMean 9 macd_values
      let histogram := macd_line - signal_line
      let prev_macd :=
        if 1 < macd_values.length then macd_values.getD (macd_values.length - 2) 0 else macd_line
      let prev_signal :=
        if macd_values.dropLast.isEmpty then signal_line else ewmMean 9 macd_values.dropLast
      let bullish : ℤ :=
        if 35 < idx ∧ prev_macd < prev_signal ∧ signal_line < macd_line then 1 else 0
      let bearish : ℤ :=
        if 35 < idx ∧ ¬ (prev_macd < prev_signal ∧ signal_line < macd_line) ∧
            prev_signal < prev_macd ∧ macd_line < signal_line then 1 else 0
      ⟨some (pyRound macd_line 4), some (pyRound signal_line 4), some (pyRound histogram 4),
       bullish, bearish⟩

/-- Result shape of `_calc_bollinger_bands`. -/
structure BollingerResult where
  bb_upper : Option ℝ
  bb_middle : Option ℝ
  bb_lower : Option ℝ
  bb_bandwidth_percent : Option ℝ
  is_bb_squeeze : ℤ
deriving Inhabited

/-- The 20-bar sample variance (pandas `std` uses `ddof=1`) of the closes at
positions `idx-19 .. idx`. -/
def bbVariance (df : List Bar) (idx : ℕ) : ℚ :=
  let closes := (sliceIncl df (idx - 20 + 1) idx).map (·.close)
  let middle := listMean closes
  (closes.map (fun x => (x - middle) ^ 2)).sum / ((closes.length : ℚ) - 1)

/-- The Bollinger middle band: SMA-20 of the closes at `idx-19 .. idx`. -/
def bbMiddle (df : List Bar) (idx : ℕ) : ℚ :=
  listMean ((sliceIncl df (idx - 20 + 1) idx).map (·.close))

/-- `closes.std()`: the sample standard deviation (the irrational step). -/
noncomputable def bbStd (df : List Bar) (idx : ℕ) : ℝ :=
  Real.sqrt ((bbVariance df idx : ℚ) : ℝ)

/-- Upper band = middle + 2·std. -/
noncomputable def bbUpper (df : List Bar) (idx : ℕ) : ℝ :=
  (bbMiddle df idx : ℝ) + 2 * bbStd df idx

/-- Lower band = middle − 2·std. -/
noncomputable def bbLower (df : List Bar) (idx : ℕ) : ℝ :=
  (bbMiddle df idx : ℝ) - 2 * bbStd df idx

open Classical in
/-- Bandwidth % = `(upper-lower)/middle*100` (0 on a non-positive middle). -/
noncomputable def bbBandwidth (df : List Bar) (idx : ℕ) : ℝ :=
  if 0 < bbMiddle df idx then (bbUpper df idx - bbLower df idx) / (bbMiddle df idx : ℝ) * 100
  else 0

open Classical in
/-- `_calc_bollinger_bands`: middle = SMA-20, upper/lower = middle ± 2·std
(sample std, hence `Real.sqrt` of `bbVariance`), bandwidth % and the
`bandwidth < 10` squeeze flag.  Null before 20 bars. -/
noncomputable def calc_bollinger_bands (df : List Bar) (idx : ℕ) : BollingerResult :=
  if idx < 20 then ⟨none, none, none, none, 0⟩
  else
    ⟨some (pyRoundR (bbUpper df idx) 4), some (pyRoundR ((bbMiddle df idx : ℚ) : ℝ) 4),
     some (pyRoundR (bbLower df idx) 4), some (pyRoundR (bbBandwidth df idx) 4),
     if bbBandwidth df idx < 10 then 1 else 0⟩

/-- Result shape of `_calc_adx`. -/
structure AdxResult where
  adx_14 : Option ℚ
  di_plus : Option ℚ
  di_minus : Option ℚ
  is_strong_trend : ℤ
deriving DecidableEq

/-- `_calc_adx`: Wilder directional movement over the trailing 28 bars, DI±
from the last-14 means, DX, and ADX taken equal to DX (the source's documented
simplification).  Null before 28 bars. -/
def calc_adx (df : List Bar) (idx : ℕ) : AdxResult :=
  if idx < 14 * 2 then ⟨none, none, none, 0⟩
  else
    let rows := List.range' (idx - 14 * 2 + 1) (14 * 2)
    let true_ranges := rows.map (fun i =>
      let h := (bar df i).high
      let l := (bar df i).low
      let prev_close := if 0 < i then (bar df (i - 1)).close else (bar df i).open_price
      max (h - l) (max |h - prev_close| |l - prev_close|))
    let plus_dms := rows.map (fun i =>
      let h := (bar df i).high
      let l := (bar df i).low
      let prev_high := if 0 < i then (bar df (i - 1)).high else h
      let prev_low := if 0 < i then (bar df (i - 1)).low else l
      let up_move := h - prev_high
      let down_move := prev_low - l
      if down_move < up_move ∧ 0 < up_move then up_move else 0)
    let minus_dms := rows.map (fun i =>
      let h := (bar df i).high
      let l := (bar df i).low
      let prev_high := if 0 < i then (bar df (i - 1)).high else h
      let prev_low := if 0 < i then (bar df (i - 1)).low else l
      let up_move := h - prev_high
      let down_move := prev_low - l
      if up_move < down_move ∧ 0 < down_move then down_move else 0)
    let atr := listMean (true_ranges.drop (true_ranges.length - 14))
    let plus_dm_smooth := listMean (plus_dms.drop (plus_dms.length - 14))
    let minus_dm_smooth := listMean (minus_dms.drop (minus_dms.length - 14))
    let di_plus := if 0 < atr then plus_dm_smooth / atr * 100 else 0
    let di_minus := if 0 < atr then minus_dm_smooth / atr * 100 else 0
    let di_sum := di_plus + di_minus
    let dx := if di_sum = 0 then 0 else |di_plus - di_minus| / di_sum * 100
    let adx := dx
    ⟨some (pyRound adx 4), some (pyRound di_plus 4), some (pyRound di_minus 4),
     if 25 < adx then 1 else 0⟩

/-! ## Universe-wide metrics (`_calculate_universe_metrics`) -/

/-- The four breadth figures shared by every record of a run. -/
structure UniverseMetrics where
  universe_up_count : ℕ
  universe_down_count : ℕ
  mcclellan_oscillator : ℚ
  mcclellan_summation : ℚ
deriving DecidableEq

/-- Advances minus declines of the rows on one date. -/
def adValue (ohlcv_data : List Bar) (d : ℕ) : ℚ :=
  let day := ohlcv_data.filter (fun b => b.date = d)
  ((day.countP (fun b => b.open_price ≤ b.close) : ℤ) -
    (day.countP (fun b => b.close < b.open_price) : ℤ) : ℤ)

/-- The sorted distinct dates of a frame (`sorted(df['date'].unique())`). -/
def uniqueDates (ohlcv_data : List Bar) : List ℕ :=
  List.insertionSort (fun a b => a ≤ b) (ohlcv_data.map (·.date)).dedup

/-- `target_date_idx`: the index of the target in the sorted distinct dates,
`-1` when absent. -/
def targetIdxZ (ohlcv_data : List Bar) (target : ℕ) : ℤ :=
  match (uniqueDates ohlcv_data).findIdx? (fun d => d = target) with
  | some i => (i : ℤ)
  | none => -1

/-- The McClellan oscillator: EWM-19 − EWM-39 of the advance/decline
differentials over the 41 distinct dates ending at the target. -/
def mcclellanOsc (ohlcv_data : List Bar) (target : ℕ) : ℚ :=
  let lookback_dates := sliceList (uniqueDates ohlcv_data)
    ((targetIdxZ ohlcv_data target).toNat - 40) (targetIdxZ ohlcv_data target).toNat
  ewmMean 19 (lookback_dates.map (adValue ohlcv_data)) -
    ewmMean 39 (lookback_dates.map (adValue ohlcv_data))

/-- `_calculate_universe_metrics`: breadth counts on the target date, and the
McClellan oscillator (0.0 with fewer than 40 earlier distinct dates).  The
summation is ASSIGNED the oscillator value (the source comment: "Simplified -
full implementation requires historical state"). -/
def calculate_universe_metrics (ohlcv_data : List Bar) (target : ℕ) : UniverseMetrics :=
  if ohlcv_data.filter (fun b => b.date = target) = [] then ⟨0, 0, 0, 0⟩
  else if targetIdxZ ohlcv_data target < 40 then
    ⟨(ohlcv_data.filter (fun b => b.date = target)).countP (fun b => b.open_price ≤ b.close),
     (ohlcv_data.filter (fun b => b.date = target)).countP (fun b => b.close < b.open_price),
     0, 0⟩
  else
    ⟨(ohlcv_data.filter (fun b => b.date = target)).countP (fun b => b.open_price ≤ b.close),
     (ohlcv_data.filter (fun b => b.date = target)).countP (fun b => b.close < b.open_price),
     pyRound (mcclellanOsc ohlcv_data target) 2, pyRound (mcclellanOsc ohlcv_data target) 2⟩

/-! ## The per-symbol record and engine (`_calculate_symbol_metrics`) -/

/-- One `calculated_metrics` row: the flat mapping built by the engine. -/
structure MetricRec where
  symbol : String
  date : ℕ
  change_1d_percent : Option ℚ
  change_1w_percent : Option ℚ
  change_1m_percent : Option ℚ
  change_3m_percent : Option ℚ
  change_6m_percent : Option ℚ
  change_1d_value : Option ℚ
  atr_14 : Option ℚ
  atr_percent : ℚ
  adr_percent : ℚ
  today_range_percent : ℚ
  volume_50d_avg : Option ℤ
  rvol : Option ℚ
  is_volume_surge : ℤ
  ema_10 : Option ℚ
  sma_20 : Option ℚ
  sma_50 : Option ℚ
  sma_100 : Option ℚ
  sma_200 : Option ℚ
  distance_from_ema10_percent : Option ℚ
  distance_from_sma50_percent : Option ℚ
  distance_from_sma200_percent : Option ℚ
  is_ma_stacked : ℤ
  atr_extension_from_sma50 : Option ℚ
  lod_atr_percent : Option ℚ
  is_lod_tight : ℤ
  darvas_20d_high : Option ℚ
  darvas_20d_low : Option ℚ
  darvas_position_percent : Option ℚ
  is_new_20d_high : ℤ
  is_new_20d_low : ℤ
  orh_proxy : ℚ
  is_m30_reclaim : ℤ
  vcp_score : ℕ
  stage : ℕ
  stage_detail : String
  universe_up_count : ℕ
  universe_down_count : ℕ
  mcclellan_oscillator : ℚ
  mcclellan_summation : ℚ
  rs_ratio : ℚ
  rs_momentum : ℚ
  is_green_candle : ℤ
  rsi_14 : Option ℚ
  rsi_oversold : ℤ
  rsi_overbought : ℤ
  macd_line : Option ℚ
  macd_signal : Option ℚ
  macd_histogram : Option ℚ
  is_macd_bullish_cross : ℤ
  is_macd_bearish_cross : ℤ
  bb_upper : Option ℝ
  bb_middle : Option ℝ
  bb_lower : Option ℝ
  bb_bandwidth_percent : Option ℝ
  is_bb_squeeze : ℤ
  adx_14 : Option ℚ
  di_plus : Option ℚ
  di_minus : Option ℚ
  is_strong_trend : ℤ
  rs_percentile : ℚ
  vars_score : ℚ
  varw_score : ℚ

/-- The record body assembled by `_calculate_symbol_metrics` once the target
index passed the 200-bar gate and the volume metrics did not raise. -/
noncomputable def buildRecord (symbol : String) (df : List Bar) (idx : ℕ) (target : ℕ)
    (univ : UniverseMetrics) (vol : VolumeMetrics) : MetricRec :=
  let current := bar df idx
  let pc := calc_price_changes df idx
  let v := calc_volatility df idx
  let ma := calc_moving_averages df idx
  let ae := calc_atr_extension df idx ma.sma_50 v.atr_14
  let dv := calc_darvas df idx
  let nh := calc_new_highs_lows df idx
  let st := calc_stage df idx ma.sma_50 ma.sma_200 dv.darvas_position_percent
    ae.atr_extension_from_sma50
  let rrg := calc_rrg_metrics df idx
  let rsi := calc_rsi df idx
  let macd := calc_macd df idx
  let bb := calc_bollinger_bands df idx
  let adx := calc_adx df idx
  { symbol := symbol
    date := target
    change_1d_percent := pc.change_1d_percent
    change_1w_percent := pc.change_1w_percent
    change_1m_percent := pc.change_1m_percent
    change_3m_percent := pc.change_3m_percent
    change_6m_percent := pc.change_6m_percent
    change_1d_value := pc.change_1d_value
    atr_14 := v.atr_14
    atr_percent := v.atr_percent
    adr_percent := v.adr_percent
    today_range_percent := v.today_range_percent
    volume_50d_avg := vol.volume_50d_avg
    rvol := vol.rvol
    is_volume_surge := vol.is_volume_surge
    ema_10 := ma.ema_10
    sma_20 := ma.sma_20
    sma_50 := ma.sma_50
    sma_100 := ma.sma_100
    sma_200 := ma.sma_200
    distance_from_ema10_percent := ma.distance_from_ema10_percent
    distance_from_sma50_percent := ma.distance_from_sma50_percent
    distance_from_sma200_percent := ma.distance_from_sma200_percent
    is_ma_stacked := ma.is_ma_stacked
    atr_extension_from_sma50 := ae.atr_extension_from_sma50
    lod_atr_percent := ae.lod_atr_percent
    is_lod_tight := ae.is_lod_tight
    darvas_20d_high := dv.darvas_20d_high
    darvas_20d_low := dv.darvas_20d_low
    darvas_position_percent := dv.darvas_position_percent
    is_new_20d_high := nh.is_new_20d_high
    is_new_20d_low := nh.is_new_20d_low
    orh_proxy := current.high
    is_m30_reclaim := if current.high * (99 / 100) < current.close then 1 else 0
    vcp_score := calc_vcp_score df idx
    stage := st.stage
    stage_detail := st.stage_detail
    universe_up_count := univ.universe_up_count
    universe_down_count := univ.universe_down_count
    mcclellan_oscillator := univ.mcclellan_oscillator
    mcclellan_summation := univ.mcclellan_summation
    rs_ratio := rrg.rs_ratio
    rs_momentum := rrg.rs_momentum
    is_green_candle := if current.open_price ≤ current.close then 1 else 0
    rsi_14 := rsi.rsi_14
    rsi_oversold := rsi.rsi_oversold
    rsi_overbought := rsi.rsi_overbought
    macd_line := macd.macd_line
    macd_signal := macd.macd_signal
    macd_histogram := macd.macd_histogram
    is_macd_bullish_cross := macd.is_macd_bullish_cross
    is_macd_bearish_cross := macd.is_macd_bearish_cross
    bb_upper := bb.bb_upper
    bb_middle := bb.bb_middle
    bb_lower := bb.bb_lower
    bb_bandwidth_percent := bb.bb_bandwidth_percent
    is_bb_squeeze := bb.is_bb_squeeze
    adx_14 := adx.adx_14
    di_plus := adx.di_plus
    di_minus := adx.di_minus
    is_strong_trend := adx.is_strong_trend
    rs_percentile := 50
    vars_score := 0
    varw_score := 0 }

/-- `df.sort_values('date')`: stable ascending sort by date. -/
def sortByDate (l : List Bar) : List Bar :=
  List.insertionSort (fun a b => a.date ≤ b.date) l

/-- `_calculate_symbol_metrics`: sort the symbol frame by date, locate the
target row, skip (`none`) when the target is absent or its index is < 200, and
otherwise assemble the full record — propagating the one possible exception
(all-null 50-bar volume window). -/
noncomputable def calculate_symbol_metrics (symbol : String) (symbol_data : List Bar)
    (target : ℕ) (univ : UniverseMetrics) : Except String (Option MetricRec) :=
  let df := sortByDate symbol_data
  match df.findIdx? (fun b => b.date = target) with
  | none => .ok none
  | some target_idx =>
    if target_idx < 200 then .ok none
    else
      match calc_volume_metrics df target_idx with
      | .error e => .error e
      | .ok vol => .ok (some (buildRecord symbol df target_idx target univ vol))

/-! ## Second aggregator pass (`_calculate_rs_percentiles`) -/

/-- The `(symbol, 1-month % change)` pairs of the records whose change is not
null, in record order. -/
def collectChanges (all_metrics : List MetricRec) : List (String × ℚ) :=
  all_metrics.filterMap (fun m => m.change_1m_percent.map (fun c => (m.symbol, c)))

/-- The percentile assigned to `rank` out of `total`:
`rank/(total-1)*100` (`50.0` when `total ≤ 1`). -/
def pctOfRank (total rank : ℕ) : ℚ :=
  if 1 < total then (rank : ℚ) / ((total : ℚ) - 1) * 100 else 50

/-- The Python dict built by `for rank, (symbol, change) in enumerate(...)`:
later assignments to the same key win. -/
def percentileMap (sorted : List (String × ℚ)) : String → Option ℚ :=
  (sorted.enum).foldl
    (fun acc e => fun s => if s = e.2.1 then some (pctOfRank sorted.length e.1) else acc s)
    (fun _ => none)

/-- `changes_1m.sort(key=lambda x: x[1])`: stable sort on the change value. -/
def rsSorted (l : List (String × ℚ)) : List (String × ℚ) :=
  List.insertionSort (fun a b : String × ℚ => a.2 ≤ b.2) l

/-- The field writes applied to a ranked record. -/
def rsApply (m : MetricRec) (rs_percentile : ℚ) : MetricRec :=
  if ¬ m.adr_percent = 0 ∧ 0 < m.adr_percent then
    { m with rs_percentile := pyRound rs_percentile 2
             vars_score := pyRound (rs_percentile / m.adr_percent) 4
             varw_score := pyRound ((100 - rs_percentile) / m.adr_percent) 4 }
  else
    { m with rs_percentile := pyRound rs_percentile 2
             vars_score := 0
             varw_score := 0 }

/-- The write-back into one record: set `rs_percentile` (rounded to 2 places)
and `vars_score`/`varw_score` when the symbol was ranked, else leave it. -/
def rsUpdate (pmap : String → Option ℚ) (m : MetricRec) : MetricRec :=
  match pmap m.symbol with
  | none => m
  | some rs_percentile => rsApply m rs_percentile

/-- `_calculate_rs_percentiles`: stable-sort the non-null 1-month changes
ascending, assign `rank/(N-1)*100` percentiles, and write
`rs_percentile`/`vars_score`/`varw_score` back into every record whose symbol
was ranked. -/
def calculate_rs_percentiles (all_metrics : List MetricRec) : List MetricRec :=
  if collectChanges all_metrics = [] then all_metrics
  else all_metrics.map
    (rsUpdate (percentileMap (rsSorted (collectChanges all_metrics))))

theorem rsUpdate_eq_of_none (pmap : String → Option ℚ) (m : MetricRec)
    (h : pmap m.symbol = none) : rsUpdate pmap m = m := by
  unfold rsUpdate
  rw [h]

theorem rsUpdate_eq_of_some (pmap : String → Option ℚ) (m : MetricRec) (q : ℚ)
    (h : pmap m.symbol = some q) : rsUpdate pmap m = rsApply m q := by
  unfold rsUpdate
  rw [h]

instance (l : List MetricRec) : Decidable (l = []) :=
  match l with
  | [] => isTrue rfl
  | _ :: _ => isFalse (by simp)

/-! ## Persistence (`_save_metrics_to_db`) and the orchestrator -/

/-- The metrics store: one optional row per `(symbol, date)` key. -/
def Store : Type := String × ℕ → Option MetricRec

/-- One loop iteration of `_save_metrics_to_db`: update the row when the
`(symbol, target_date)` key exists, insert otherwise. -/
def upsertStep (target : ℕ) (acc : Store × ℕ × ℕ) (m : MetricRec) : Store × ℕ × ℕ :=
  match acc.1 (m.symbol, target) with
  | some _ =>
    (fun k => if k = (m.symbol, target) then some m else acc.1 k, acc.2.1, acc.2.2 + 1)
  | none =>
    (fun k => if k = (m.symbol, target) then some m else acc.1 k, acc.2.1 + 1, acc.2.2)

/-- `_save_metrics_to_db`: per-record upsert returning the store and the
`(inserted, updated)` counters. -/
def save_metrics_to_db (store : Store) (metrics_list : List MetricRec) (target : ℕ) :
    Store × ℕ × ℕ :=
  metrics_list.foldl (upsertStep target) (store, 0, 0)

/-- `_fetch_ohlcv_data`: the rows of the table for the wanted symbols inside
the date window, ordered by `(symbol, date)`. -/
def fetch_ohlcv_data (table : List Bar) (symbols : List String) (start_date end_date : ℕ) :
    List Bar :=
  List.insertionSort
    (fun a b => a.symbol < b.symbol ∨ (a.symbol = b.symbol ∧ a.date ≤ b.date))
    (table.filter (fun b => symbols.contains b.symbol ∧ start_date ≤ b.date ∧ b.date ≤ end_date))

/-- The universe resolver: an explicit list wins, otherwise all active
securities. -/
def resolveSymbols (active : List String) (symbols? : Option (List String)) : List String :=
  match symbols? with
  | none => active
  | some l => l

/-- Does the per-symbol loop record a "No data" error for this symbol: its
frame is empty or the target date is missing from it. -/
def symbolFails (ohlcv_data : List Bar) (target : ℕ) (s : String) : Bool :=
  let symbol_data := ohlcv_data.filter (fun b => b.symbol = s)
  symbol_data.isEmpty || !(symbol_data.any (fun b => b.date = target))

/-- One iteration of the per-symbol loop: record a "No data" error, or run the
engine on the symbol's frame; an engine exception freezes the accumulator
(in the source it propagates out of the loop). -/
noncomputable def processStep (ohlcv_data : List Bar) (target : ℕ) (univ : UniverseMetrics)
    (acc : List String × Except String (List MetricRec)) (s : String) :
    List String × Except String (List MetricRec) :=
  match acc.2 with
  | .error e => (acc.1, .error e)
  | .ok ms =>
    if symbolFails ohlcv_data target s then
      (acc.1 ++ [s ++ ": No data for " ++ toString target], .ok ms)
    else
      match calculate_symbol_metrics s (ohlcv_data.filter (fun b => b.symbol = s))
          target univ with
      | .error e => (acc.1, .error e)
      | .ok none => (acc.1, .ok ms)
      | .ok (some m) => (acc.1, .ok (ms ++ [m]))

/-- The per-symbol loop of `calculate_metrics_for_date`: accumulates "No data"
error strings and collects produced records. -/
noncomputable def processSymbols (symbols : List String) (ohlcv_data : List Bar) (target : ℕ)
    (univ : UniverseMetrics) : List String × Except String (List MetricRec) :=
  symbols.foldl (processStep ohlcv_data target univ) ([], .ok [])

/-- The run-level result dict of `calculate_metrics_for_date`. -/
structure RunResult where
  success : Bool
  target_date : String
  records_inserted : ℕ
  records_updated : ℕ
  errors : List String
deriving DecidableEq

/-- `calculate_metrics_for_date`: resolve the universe (explicit list or the
active-security master), bulk-load ~375 calendar days of history, fail fast on
an empty universe or empty load, compute universe metrics, run the per-symbol
loop, run the percentile pass, and upsert — `success` only when at least one
record was produced.  An engine exception is caught by the outer `try` with a
`Calculation failed:` error and nothing persisted. -/
noncomputable def calculate_metrics_for_date (active : List String) (table : List Bar)
    (store : Store) (target : ℕ) (symbols? : Option (List String)) : RunResult × Store :=
  let symbols := resolveSymbols active symbols?
  if symbols = [] then
    (⟨false, toString target, 0, 0, ["No active securities found"]⟩, store)
  else
    let ohlcv_data := fetch_ohlcv_data table symbols (target - 375) target
    if ohlcv_data = [] then
      (⟨false, toString target, 0, 0, ["No OHLCV data found for " ++ toString target]⟩, store)
    else
      let univ := calculate_universe_metrics ohlcv_data target
      match processSymbols symbols ohlcv_data target univ with
      | (errs, .error e) =>
        (⟨false, toString target, 0, 0, errs ++ ["Calculation failed: " ++ e]⟩, store)
      | (errs, .ok all_metrics) =>
        let all_metrics := if all_metrics = [] then all_metrics
          else calculate_rs_percentiles all_metrics
        if all_metrics = [] then (⟨false, toString target, 0, 0, errs⟩, store)
        else
          let saved := save_metrics_to_db store all_metrics target
          (⟨true, toString target, saved.2.1, saved.2.2, errs⟩, saved.1)

/-! ## Infrastructure for concrete evaluation -/

instance {ε α : Type} [DecidableEq ε] [DecidableEq α] : DecidableEq (Except ε α) :=
  fun a b =>
    match a, b with
    | .ok x, .ok y =>
      if h : x = y then isTrue (by rw [h]) else isFalse (fun hc => by cases hc; exact h rfl)
    | .error x, .error y =>
      if h : x = y then isTrue (by rw [h]) else isFalse (fun hc => by cases hc; exact h rfl)
    | .ok _, .error _ => isFalse (fun hc => by cases hc)
    | .error _, .ok _ => isFalse (fun hc => by cases hc)

/-- A synthetic symbol history: `n` bars with dates `0, 1, …, n-1`. -/
def rangeBars (n : ℕ) (f : ℕ → Bar) : List Bar := (List.range n).map f

/-- 250 flat bars: `open = high = low = close = 100`, volume 1000. -/
def flatBars : List Bar := rangeBars 250 (fun i => ⟨"X", i, 100, 100, 100, 100, some 1000⟩)

/-- 201 bars whose closes are 100 for the first 180 days and then
`0, 1, …, 20`: the trailing-21 mean and the trailing-20 mean differ at the
last day. -/
def c2Bars : List Bar := rangeBars 201 (fun i =>
  let c : ℚ := if i < 180 then 100 else ((i - 180 : ℕ) : ℚ)
  ⟨"T", i, c, c, c, c, some 1000⟩)

/-- 201 flat bars with null volume throughout (an index-like series). -/
def nullVol201 : List Bar := rangeBars 201 (fun i => ⟨"I", i, 100, 100, 100, 100, none⟩)

/-- 250 flat bars with null volume throughout. -/
def nullVol250 : List Bar := rangeBars 250 (fun i => ⟨"J", i, 100, 100, 100, 100, none⟩)

/-- A 5-bar history for one symbol: far too short for the 200-bar gate. -/
def smallTable : List Bar := rangeBars 5 (fun i => ⟨"A", i, 10, 11, 9, 10, some 500⟩)

theorem rangeBars_date_lt {n : ℕ} {f : ℕ → Bar} (hf : ∀ i, (f i).date = i) :
    (rangeBars n f).Pairwise (fun a b => a.date < b.date) := by
  unfold rangeBars
  rw [List.pairwise_map]
  exact (List.pairwise_lt_range n).imp (fun h => by simp only [hf]; exact h)

theorem sortByDate_eq_self {l : List Bar} (h : l.Pairwise (fun a b => a.date < b.date)) :
    sortByDate l = l :=
  List.Sorted.insertionSort_eq (h.imp Nat.le_of_lt)

theorem bar_rangeBars {n : ℕ} {f : ℕ → Bar} {i : ℕ} (h : i < n) :
    bar (rangeBars n f) i = f i := by
  unfold bar rangeBars
  rw [List.getD_eq_getElem?_getD]
  simp [List.getElem?_map, List.getElem?_range, h]

theorem bar_eq_getElem {df : List Bar} {i : ℕ} (h : i < df.length) : bar df i = df[i] := by
  unfold bar
  rw [List.getD_eq_getElem?_getD, List.getElem?_eq_getElem h]
  rfl

theorem sliceIncl_five {df : List Bar} {a : ℕ} (h : a + 4 < df.length) :
    sliceIncl df a (a + 4) =
      [bar df a, bar df (a + 1), bar df (a + 2), bar df (a + 3), bar df (a + 4)] := by
  unfold sliceIncl
  have e : a + 4 + 1 - a = 5 := by omega
  rw [e]
  have h0 : a < df.length := by omega
  have h1 : a + 1 < df.length := by omega
  have h2 : a + 2 < df.length := by omega
  have h3 : a + 3 < df.length := by omega
  rw [List.drop_eq_getElem_cons h0, List.take_succ_cons,
    List.drop_eq_getElem_cons h1, List.take_succ_cons,
    List.drop_eq_getElem_cons h2, List.take_succ_cons,
    List.drop_eq_getElem_cons h3, List.take_succ_cons,
    List.drop_eq_getElem_cons h, List.take_succ_cons, List.take_zero]
  rw [bar_eq_getElem h0, bar_eq_getElem h1, bar_eq_getElem h2, bar_eq_getElem h3,
    bar_eq_getElem h]

/-! ## C4: the VCP score -/

/-- Only 4 adjacent comparisons exist inside the 5-bar window, so the
narrowing count is at most 4. -/
theorem vcp_score_le_four (df : List Bar) (idx : ℕ) : calc_vcp_score df idx ≤ 4 := by
  unfold calc_vcp_score
  split
  · omega
  · next h =>
    show min _ 5 ≤ 4
    refine le_trans (Nat.min_le_left _ _) (le_trans (List.countP_le_length _) ?_)
    rw [List.length_range']
    have hlen : ((sliceIncl df (idx - 4) idx).map (fun b => b.high - b.low)).length ≤ 5 := by
      simp only [List.length_map]
      unfold sliceIncl
      exact le_trans (List.length_take_le _ _) (by omega)
    omega

/-- C4 (counterexample): the VCP score can never attain the value 5 — over a
5-bar window only 4 adjacent range comparisons exist, so the claimed cap of 5
is unreachable. -/
theorem c4_counterexample : ¬ ∃ (df : List Bar) (idx : ℕ), calc_vcp_score df idx = 5 := by
  rintro ⟨df, idx, h⟩
  have := vcp_score_le_four df idx
  omega

/-- C4 (amended): the VCP score is the number of positions among the trailing
four (not necessarily consecutive) whose `(high-low)` range is strictly below
the immediately preceding bar's range; it is 0 before 5 bars exist and can
never exceed 4. -/
theorem c4_theorem (df : List Bar) (idx : ℕ) :
    calc_vcp_score df idx ≤ 4
    ∧ (idx < 5 → calc_vcp_score df idx = 0)
    ∧ (5 ≤ idx → idx < df.length →
        calc_vcp_score df idx =
          (let rng := fun i => (bar df i).high - (bar df i).low
          (if rng (idx - 3) < rng (idx - 4) then 1 else 0)
          + (if rng (idx - 2) < rng (idx - 3) then 1 else 0)
          + (if rng (idx - 1) < rng (idx - 2) then 1 else 0)
          + (if rng idx < rng (idx - 1) then 1 else 0))) := by
  refine ⟨vcp_score_le_four df idx, ?_, ?_⟩
  · intro h
    unfold calc_vcp_score
    rw [if_pos h]
  · intro h5 hlen
    unfold calc_vcp_score
    rw [if_neg (by omega)]
    have hf : sliceIncl df (idx - 4) idx =
        [bar df (idx - 4), bar df (idx - 4 + 1), bar df (idx - 4 + 2), bar df (idx - 4 + 3),
          bar df (idx - 4 + 4)] := by
      have e : idx - 4 + 4 = idx := by omega
      rw [← e]
      exact sliceIncl_five (by omega)
    have e1 : idx - 4 + 1 = idx - 3 := by omega
    have e2 : idx - 4 + 2 = idx - 2 := by omega
    have e3 : idx - 4 + 3 = idx - 1 := by omega
    have e4 : idx - 4 + 4 = idx := by omega
    rw [e1, e2, e3, e4] at hf
    rw [hf]
    simp only [List.map_cons, List.map_nil, List.length_cons, List.length_nil]
    norm_num [List.range', List.countP_cons, List.countP_nil, List.getD_cons_zero,
      List.getD_cons_succ, decide_eq_true_eq]
    split_ifs <;> decide

/-- C4 (witness): the amended characterisation evaluated on the flat series at
its last bar. -/
theorem c4_witness :
    calc_vcp_score flatBars 249 =
      (let rng := fun i => (bar flatBars i).high - (bar flatBars i).low
      (if rng (249 - 3) < rng (249 - 4) then 1 else 0)
      + (if rng (249 - 2) < rng (249 - 3) then 1 else 0)
      + (if rng (249 - 1) < rng (249 - 2) then 1 else 0)
      + (if rng 249 < rng (249 - 1) then 1 else 0)) :=
  (c4_theorem flatBars 249).2.2 (by norm_num) (by simp [flatBars, rangeBars])

/-! ## C9: float-truthiness stores an exact 0 as null -/

theorem storeOpt_ne_some_zero (o : Option ℚ) : storeOpt o ≠ some 0 := by
  cases o with
  | none => simp [storeOpt]
  | some v =>
    by_cases h : v = 0 <;> simp [storeOpt, h]

theorem pyOptFloat_ne_some_zero (q : ℚ) : pyOptFloat q ≠ some 0 := by
  by_cases h : q = 0 <;> simp [pyOptFloat, h]

/-- C9: the fields guarded by `float(x) if x else None` can never hold the
value 0 — a computed 0 is stored as null (`atr_14`, the ATR-extension and
LoD fields, and the three distance-from-MA fields); in particular a zero
14-bar ATR is stored as null. -/
theorem c9_theorem :
    (∀ (df : List Bar) (i : ℕ), (calc_volatility df i).atr_14 ≠ some 0)
    ∧ (∀ (df : List Bar) (i : ℕ) (s a : Option ℚ),
        (calc_atr_extension df i s a).atr_extension_from_sma50 ≠ some 0)
    ∧ (∀ (df : List Bar) (i : ℕ) (s a : Option ℚ),
        (calc_atr_extension df i s a).lod_atr_percent ≠ some 0)
    ∧ (∀ (df : List Bar) (i : ℕ),
        (calc_moving_averages df i).distance_from_ema10_percent ≠ some 0)
    ∧ (∀ (df : List Bar) (i : ℕ),
        (calc_moving_averages df i).distance_from_sma50_percent ≠ some 0)
    ∧ (∀ (df : List Bar) (i : ℕ),
        (calc_moving_averages df i).distance_from_sma200_percent ≠ some 0)
    ∧ (∀ (df : List Bar) (i : ℕ), calc_atr df i 14 = 0 → (calc_volatility df i).atr_14 = none) :=
  ⟨fun df i => pyOptFloat_ne_some_zero (calc_atr df i 14),
   fun df i s a => storeOpt_ne_some_zero _,
   fun df i s a => storeOpt_ne_some_zero _,
   fun df i => storeOpt_ne_some_zero _,
   fun df i => storeOpt_ne_some_zero _,
   fun df i => storeOpt_ne_some_zero _,
   fun df i h => by
     show pyOptFloat (calc_atr df i 14) = none
     rw [h]
     simp [pyOptFloat]⟩

/-- C9 (witness): the flat series has all-zero true ranges at its last bar, and
the stored `atr_14` is indeed null there. -/
theorem c9_witness : (calc_volatility flatBars 249).atr_14 = none :=
  c9_theorem.2.2.2.2.2.2 flatBars 249 (by with_unfolding_all decide)

/-! ## C6: idempotence of re-running the orchestrator -/

theorem upsertStep_store (target : ℕ) (acc : Store × ℕ × ℕ) (m : MetricRec) (k : String × ℕ) :
    (upsertStep target acc m).1 k = if k = (m.symbol, target) then some m else acc.1 k := by
  unfold upsertStep
  cases hst : acc.1 (m.symbol, target) <;> simp [hst]

theorem upsertStep_counts (target : ℕ) (acc : Store × ℕ × ℕ) (m : MetricRec) :
    (upsertStep target acc m).2.1 + (upsertStep target acc m).2.2 = acc.2.1 + acc.2.2 + 1 := by
  unfold upsertStep
  cases hst : acc.1 (m.symbol, target) <;> simp [hst] <;> omega

theorem save_foldl_counts (target : ℕ) :
    ∀ (ms : List MetricRec) (st : Store) (i u : ℕ),
      (ms.foldl (upsertStep target) (st, i, u)).2.1 +
        (ms.foldl (upsertStep target) (st, i, u)).2.2 = i + u + ms.length := by
  intro ms
  induction ms with
  | nil => intro st i u; simp
  | cons a t ih =>
    intro st i u
    rw [List.foldl_cons]
    rcases hstep : upsertStep target (st, i, u) a with ⟨st2, i2, u2⟩
    have hcounts := upsertStep_counts target (st, i, u) a
    rw [hstep] at hcounts
    simp only at hcounts
    rw [ih st2 i2 u2]
    simp only [List.length_cons]
    omega

/-- The store after the fold, characterised by the LAST record in the batch
holding each key. -/
theorem save_foldl_store (target : ℕ) :
    ∀ (ms : List MetricRec) (acc : Store × ℕ × ℕ) (k : String × ℕ),
      (ms.foldl (upsertStep target) acc).1 k =
        match ms.reverse.find? (fun m => k = (m.symbol, target)) with
        | some m => some m
        | none => acc.1 k := by
  intro ms
  induction ms with
  | nil => intro acc k; simp
  | cons a t ih =>
    intro acc k
    rw [List.foldl_cons, ih (upsertStep target acc a), List.reverse_cons, List.find?_append]
    cases hf : t.reverse.find? (fun m => k = (m.symbol, target)) with
    | some m => simp [Option.or]
    | none =>
      simp only [Option.or, upsertStep_store]
      by_cases hk : k = (a.symbol, target) <;> simp [hk]

theorem save_foldl_inserted (target : ℕ) :
    ∀ (ms : List MetricRec) (st : Store) (i u : ℕ),
      (∀ m ∈ ms, (st (m.symbol, target)).isSome) →
      (ms.foldl (upsertStep target) (st, i, u)).2.1 = i := by
  intro ms
  induction ms with
  | nil => intro st i u _; simp
  | cons a t ih =>
    intro st i u h
    rw [List.foldl_cons]
    have ha : (st (a.symbol, target)).isSome := h a (by simp)
    obtain ⟨x, hx⟩ := Option.isSome_iff_exists.mp ha
    have hstep : upsertStep target (st, i, u) a =
        ((fun k => if k = (a.symbol, target) then some a else st k), i, u + 1) := by
      unfold upsertStep
      simp only [hx]
    rw [hstep]
    refine ih _ i (u + 1) ?_
    intro m hm
    by_cases hk : ((m.symbol, target) : String × ℕ) = (a.symbol, target) <;>
      simp [hk, h m (by simp [hm])]

theorem save_mem_isSome (target : ℕ) (ms : List MetricRec) (st : Store) (m : MetricRec)
    (hm : m ∈ ms) :
    ((save_metrics_to_db st ms target).1 (m.symbol, target)).isSome := by
  unfold save_metrics_to_db
  rw [save_foldl_store]
  cases hf : ms.reverse.find? (fun x => (m.symbol, target) = (x.symbol, target)) with
  | some x => simp
  | none =>
    exfalso
    have := List.find?_eq_none.mp hf m (by simp [hm])
    simp at this

/-- Re-saving the same batch leaves the store unchanged. -/
theorem save_store_idem (target : ℕ) (ms : List MetricRec) (st : Store) :
    (save_metrics_to_db (save_metrics_to_db st ms target).1 ms target).1 =
      (save_metrics_to_db st ms target).1 := by
  funext k
  have houter := save_foldl_store target ms
    ((ms.foldl (upsertStep target) (st, 0, 0)).1, 0, 0) k
  have hinner := save_foldl_store target ms (st, 0, 0) k
  show (ms.foldl (upsertStep target)
      ((ms.foldl (upsertStep target) (st, 0, 0)).1, 0, 0)).1 k =
    (ms.foldl (upsertStep target) (st, 0, 0)).1 k
  rw [houter, hinner]
  cases hf : ms.reverse.find? (fun m => k = (m.symbol, target)) with
  | some m => rfl
  | none =>
    rw [hf] at hinner

/-- C6: running the orchestrator twice on the same inputs (history and
security master unchanged) makes the second run insert nothing — every record
becomes an update — and leaves the persisted field values identical to the
first run's. -/
theorem c6_theorem (active : List String) (table : List Bar) (store : Store) (target : ℕ)
    (symbols? : Option (List String)) :
    ((calculate_metrics_for_date active table
      (calculate_metrics_for_date active table store target symbols?).2
      target symbols?).1).records_inserted = 0
    ∧ ((calculate_metrics_for_date active table
      (calculate_metrics_for_date active table store target symbols?).2
      target symbols?).1).records_updated =
      ((calculate_metrics_for_date active table store target symbols?).1).records_inserted +
        ((calculate_metrics_for_date active table store target symbols?).1).records_updated
    ∧ (calculate_metrics_for_date active table
      (calculate_metrics_for_date active table store target symbols?).2
      target symbols?).2 =
      (calculate_metrics_for_date active table store target symbols?).2 := by
  unfold calculate_metrics_for_date
  set syms := resolveSymbols active symbols? with hsyms
  by_cases h1 : syms = []
  · simp [if_pos h1]
  · simp only [if_neg h1]
    set fetched := fetch_ohlcv_data table syms (target - 375) target with hfetched
    by_cases h2 : fetched = []
    · simp [if_pos h2]
    · simp only [if_neg h2]
      cases hps : processSymbols syms fetched target
          (calculate_universe_metrics fetched target) with
      | mk errs res =>
        cases res with
        | error e => simp
        | ok all0 =>
          by_cases h3 : (if all0 = [] then all0 else calculate_rs_percentiles all0) = []
          · simp [if_pos h3]
          · simp only [if_neg h3]
            have hz : (save_metrics_to_db
                (save_metrics_to_db store (if all0 = [] then all0 else calculate_rs_percentiles all0) target).1
                (if all0 = [] then all0 else calculate_rs_percentiles all0) target).2.1 = 0 := by
              apply save_foldl_inserted
              intro m hm
              exact save_mem_isSome target _ store m hm
            have hc1 := save_foldl_counts target (if all0 = [] then all0 else calculate_rs_percentiles all0)
              (save_metrics_to_db store (if all0 = [] then all0 else calculate_rs_percentiles all0) target).1 0 0
            have hc2 := save_foldl_counts target (if all0 = [] then all0 else calculate_rs_percentiles all0) store 0 0
            have hst := save_store_idem target (if all0 = [] then all0 else calculate_rs_percentiles all0) store
            refine ⟨hz, ?_, hst⟩
            unfold save_metrics_to_db at hz hc1 hc2 ⊢
            omega

theorem sortByDate_nullVol201 : sortByDate nullVol201 = nullVol201 :=
  sortByDate_eq_self (rangeBars_date_lt (fun i => rfl))

theorem sortByDate_nullVol250 : sortByDate nullVol250 = nullVol250 :=
  sortByDate_eq_self (rangeBars_date_lt (fun i => rfl))

/-! ## Position of the target row in a sorted series -/

theorem countP_pos_char :
    ∀ (df : List Bar) (p : Bar → Bool) (i : ℕ), i ≤ df.length →
      (∀ j (h : j < df.length), (p df[j] = true ↔ j < i)) → df.countP p = i := by
  intro df
  induction df with
  | nil =>
    intro p i hi _
    simp only [List.length_nil, Nat.le_zero] at hi
    simp [hi]
  | cons x xs ih =>
    intro p i hi hchar
    rw [List.countP_cons]
    cases i with
    | zero =>
      have hx : ¬ p x = true := by
        have := (hchar 0 (by simp)).not
        simpa using this
      have hxs : xs.countP p = 0 := by
        refine ih p 0 (by omega) ?_
        intro j hj
        have := hchar (j + 1) (by simpa using Nat.succ_lt_succ hj)
        simpa using this
      simp [hxs, hx]
    | succ k =>
      have hx : p x = true := (hchar 0 (by simp)).mpr (by omega)
      have hxs : xs.countP p = k := by
        refine ih p k (by simpa using hi) ?_
        intro j hj
        have := hchar (j + 1) (by simpa using Nat.succ_lt_succ hj)
        simp only [List.getElem_cons_succ] at this
        rw [this]
        omega
      simp [hxs, hx]

/-- In a strictly date-sorted series, the index found for the target date is
exactly the number of bars with an earlier date. -/
theorem sorted_findIdx_countP {df : List Bar} {target i : ℕ}
    (hsorted : df.Pairwise (fun a b => a.date < b.date))
    (hf : df.findIdx? (fun b => b.date = target) = some i) :
    df.countP (fun b => b.date < target) = i := by
  rw [List.findIdx?_eq_some_iff_getElem] at hf
  obtain ⟨hi, hpi, hprev⟩ := hf
  simp only [decide_eq_true_eq] at hpi
  have hget := List.pairwise_iff_get.mp hsorted
  refine countP_pos_char df _ i (by omega) ?_
  intro j hj
  simp only [decide_eq_true_eq]
  constructor
  · intro hlt
    by_contra hge
    rcases Nat.lt_or_ge i j with hij | hij
    · have := hget ⟨i, hi⟩ ⟨j, hj⟩ hij
      simp only [List.get_eq_getElem] at this
      omega
    · have : j = i := by omega
      subst this
      omega
  · intro hji
    have := hget ⟨j, hj⟩ ⟨i, hi⟩ hji
    simp only [List.get_eq_getElem] at this
    omega

/-! ## Shape characterisations of the per-symbol engine -/

theorem engine_eq_ok_none_iff {symbol : String} {sd : List Bar} {target : ℕ}
    {univ : UniverseMetrics} :
    calculate_symbol_metrics symbol sd target univ = .ok none ↔
      ((sortByDate sd).findIdx? (fun b => b.date = target) = none ∨
        ∃ i, (sortByDate sd).findIdx? (fun b => b.date = target) = some i ∧ i < 200) := by
  unfold calculate_symbol_metrics
  cases hf : (sortByDate sd).findIdx? (fun b => b.date = target) with
  | none => simp [hf]
  | some i =>
    by_cases hi : i < 200
    · simp [hf, hi]
    · cases hv : calc_volume_metrics (sortByDate sd) i with
      | error e => simp [hf, hi, hv]
      | ok vol => simp [hf, hi, hv]

theorem engine_eq_ok_some_iff {symbol : String} {sd : List Bar} {target : ℕ}
    {univ : UniverseMetrics} {r : MetricRec} :
    calculate_symbol_metrics symbol sd target univ = .ok (some r) ↔
      ∃ i vol, (sortByDate sd).findIdx? (fun b => b.date = target) = some i ∧
        ¬ i < 200 ∧ calc_volume_metrics (sortByDate sd) i = .ok vol ∧
        r = buildRecord symbol (sortByDate sd) i target univ vol := by
  unfold calculate_symbol_metrics
  cases hf : (sortByDate sd).findIdx? (fun b => b.date = target) with
  | none => simp [hf]
  | some i =>
    by_cases hi : i < 200
    · simp [hf, hi]
    · cases hv : calc_volume_metrics (sortByDate sd) i with
      | error e => simp [hf, hi, hv]
      | ok vol =>
        simp only [hf, hv]
        rw [if_neg hi]
        constructor
        · intro h
          injection h with h1
          injection h1 with h2
          exact ⟨i, vol, rfl, hi, hv, h2.symm⟩
        · rintro ⟨i2, vol2, hi2, hlt2, hv2, hr⟩
          injection hi2 with hie
          subst hie
          rw [hv] at hv2
          injection hv2 with hve
          subst hve
          rw [hr]

theorem engine_eq_error_iff {symbol : String} {sd : List Bar} {target : ℕ}
    {univ : UniverseMetrics} {e : String} :
    calculate_symbol_metrics symbol sd target univ = .error e ↔
      ∃ i, (sortByDate sd).findIdx? (fun b => b.date = target) = some i ∧ ¬ i < 200 ∧
        calc_volume_metrics (sortByDate sd) i = .error e := by
  unfold calculate_symbol_metrics
  cases hf : (sortByDate sd).findIdx? (fun b => b.date = target) with
  | none => simp [hf]
  | some i =>
    by_cases hi : i < 200
    · simp [hf, hi]
    · cases hv : calc_volume_metrics (sortByDate sd) i with
      | error e2 =>
        simp [hf, hi, hv]
        intro _
        omega
      | ok vol => simp [hf, hi, hv]

/-- When the index is past the gate and the 50-bar volume window holds at
least one non-null volume, `_calc_volume_metrics` cannot raise. -/
theorem calc_volume_metrics_ok {df : List Bar} {i : ℕ} (h50 : ¬ i < 50)
    (hw : (sliceIncl df (i - 50) (i - 1)).filterMap (fun b => b.volume) ≠ []) :
    ∃ vol, calc_volume_metrics df i = .ok vol := by
  unfold calc_volume_metrics
  rw [if_neg h50, if_neg hw]
  cases (bar df i).volume with
  | none =>
    by_cases havg :
        0 < listMean ((sliceIncl df (i - 50) (i - 1)).filterMap (fun b => b.volume)) <;>
      simp [havg]
  | some v => simp

/-! ## C1: the 200-bar gate -/

/-- C1 (counterexample): an index-like series (all-null volume) with exactly
200 prior bars and the target date present does NOT produce a record — the
engine raises converting the NaN volume average instead. -/
theorem c1_counterexample :
    calculate_symbol_metrics "I" nullVol201 200 ⟨0, 0, 0, 0⟩ =
      .error "cannot convert float NaN to integer" := by
  rw [engine_eq_error_iff]
  refine ⟨200, ?_, by omega, ?_⟩
  · rw [sortByDate_nullVol201]
    with_unfolding_all decide
  · rw [sortByDate_nullVol201]
    with_unfolding_all decide

/-- C1 (amended): on a strictly date-ascending series the engine yields
`.ok none` exactly when the target date is absent or fewer than 200 bars
precede it (with exactly 199 preceding bars: no record); with 200 preceding
bars and the target present it produces a record PROVIDED the volumes are
non-null — with an all-null volume window it raises instead of producing a
record. -/
theorem c1_theorem (symbol : String) (sd : List Bar) (target : ℕ) (univ : UniverseMetrics)
    (hsorted : sd.Pairwise (fun a b => a.date < b.date)) :
    (calculate_symbol_metrics symbol sd target univ = .ok none ↔
      ((∀ b ∈ sd, b.date ≠ target) ∨ sd.countP (fun b => b.date < target) < 200))
    ∧ (sd.countP (fun b => b.date < target) = 199 →
        calculate_symbol_metrics symbol sd target univ = .ok none)
    ∧ ((∃ b ∈ sd, b.date = target) → sd.countP (fun b => b.date < target) = 200 →
        (∀ b ∈ sd, b.volume ≠ none) →
        ∃ r, calculate_symbol_metrics symbol sd target univ = .ok (some r)) := by
  have hid : sortByDate sd = sd := sortByDate_eq_self hsorted
  have hiff : calculate_symbol_metrics symbol sd target univ = .ok none ↔
      ((∀ b ∈ sd, b.date ≠ target) ∨ sd.countP (fun b => b.date < target) < 200) := by
    rw [engine_eq_ok_none_iff, hid]
    constructor
    · rintro (hnone | ⟨i, hfi, hi⟩)
      · left
        intro b hb
        have := List.findIdx?_eq_none_iff.mp hnone b hb
        simpa using this
      · right
        rw [sorted_findIdx_countP hsorted hfi]
        exact hi
    · rintro (habsent | hcount)
      · left
        rw [List.findIdx?_eq_none_iff]
        intro b hb
        simpa using habsent b hb
      · cases hf : sd.findIdx? (fun b => b.date = target) with
        | none => exact Or.inl rfl
        | some i =>
          right
          refine ⟨i, rfl, ?_⟩
          rw [sorted_findIdx_countP hsorted hf] at hcount
          exact hcount
  refine ⟨hiff, fun h199 => hiff.mpr (Or.inr (by omega)), ?_⟩
  intro hpresent hcount hvolumes
  cases hf : sd.findIdx? (fun b => b.date = target) with
  | none =>
    exfalso
    obtain ⟨b, hb, hbt⟩ := hpresent
    have := List.findIdx?_eq_none_iff.mp hf b hb
    simp [hbt] at this
  | some i =>
    have hieq : i = 200 := by
      rw [sorted_findIdx_countP hsorted hf] at hcount
      omega
    subst hieq
    have hlen : 200 < sd.length := by
      rw [List.findIdx?_eq_some_iff_getElem] at hf
      exact hf.1
    have hwin : (sliceIncl sd (200 - 50) (200 - 1)).filterMap (fun b => b.volume) ≠ [] := by
      intro hnil
      rw [List.filterMap_eq_nil] at hnil
      have hmem : bar sd 150 ∈ sliceIncl sd (200 - 50) (200 - 1) := by
        unfold sliceIncl
        rw [bar_eq_getElem (show (150 : ℕ) < sd.length by omega)]
        rw [List.mem_take_iff_getElem]
        refine ⟨0, ?_, ?_⟩
        · simp only [List.length_drop]
          omega
        · rw [List.getElem_drop]
      have hsub : bar sd 150 ∈ sd := by
        have h2 := List.take_sublist (200 - 1 + 1 - (200 - 50)) (sd.drop (200 - 50))
        have h3 := List.drop_sublist (200 - 50) sd
        exact (h2.trans h3).mem hmem
      exact hvolumes _ hsub (hnil _ hmem)
    obtain ⟨vol, hvol⟩ := @calc_volume_metrics_ok sd 200 (by omega) hwin
    refine ⟨buildRecord symbol sd 200 target univ vol, ?_⟩
    rw [engine_eq_ok_some_iff, hid]
    exact ⟨200, vol, hf, by omega, hvol, rfl⟩

/-- C1 (witness): on the flat 250-bar series, target day 199 has 199 prior
bars (no record) while target day 200 has 200 prior bars and produces one. -/
theorem c1_witness :
    calculate_symbol_metrics "X" flatBars 199 ⟨0, 0, 0, 0⟩ = .ok none ∧
      ∃ r, calculate_symbol_metrics "X" flatBars 200 ⟨0, 0, 0, 0⟩ = .ok (some r) :=
  ⟨(c1_theorem ("X") flatBars 199 ⟨0, 0, 0, 0⟩ (rangeBars_date_lt (fun i => rfl))).2.1
      (by with_unfolding_all decide),
   (c1_theorem ("X") flatBars 200 ⟨0, 0, 0, 0⟩ (rangeBars_date_lt (fun i => rfl))).2.2
      (by with_unfolding_all decide) (by with_unfolding_all decide)
      (by with_unfolding_all decide)⟩

/-! ## C8: the engine can raise on an all-null volume window -/

/-- C8 (counterexample): a 250-bar series satisfying the Bar invariants with
null volume throughout (an index) makes the engine raise at the target day —
it does not terminate normally with nulled indicators. -/
theorem c8_counterexample :
    calculate_symbol_metrics "J" nullVol250 249 (calculate_universe_metrics nullVol250 249) =
      .error "cannot convert float NaN to integer" := by
  rw [engine_eq_error_iff]
  refine ⟨249, ?_, by omega, ?_⟩
  · rw [sortByDate_nullVol250]
    with_unfolding_all decide
  · rw [sortByDate_nullVol250]
    with_unfolding_all decide

/-- C8 (amended): past the 200-bar gate the engine terminates without raising
— producing a full record — PROVIDED at least one bar of the 50-bar volume
window has a non-null volume; every indicator is total, and the sole partial
operation is the `int()` conversion of the volume average. -/
theorem c8_theorem (symbol : String) (sd : List Bar) (target : ℕ) (univ : UniverseMetrics)
    (idx : ℕ) (hidx : (sortByDate sd).findIdx? (fun b => b.date = target) = some idx)
    (h200 : 200 ≤ idx)
    (hvol : ∃ b ∈ sliceIncl (sortByDate sd) (idx - 50) (idx - 1), b.volume ≠ none) :
    ∃ r, calculate_symbol_metrics symbol sd target univ = .ok (some r) := by
  have hwin : (sliceIncl (sortByDate sd) (idx - 50) (idx - 1)).filterMap
      (fun b => b.volume) ≠ [] := by
    intro hnil
    rw [List.filterMap_eq_nil] at hnil
    obtain ⟨b, hb, hbv⟩ := hvol
    exact hbv (hnil b hb)
  obtain ⟨vol, hv⟩ := @calc_volume_metrics_ok (sortByDate sd) idx (by omega) hwin
  refine ⟨buildRecord symbol (sortByDate sd) idx target univ vol, ?_⟩
  rw [engine_eq_ok_some_iff]
  exact ⟨idx, vol, hidx, by omega, hv, rfl⟩

/-- C8 (witness): the flat 250-bar series (non-null volumes) produces a record
at its last day. -/
theorem sortByDate_flatBars : sortByDate flatBars = flatBars :=
  sortByDate_eq_self (@rangeBars_date_lt 250 _ (fun i => rfl))

theorem c8_witness :
    ∃ r, calculate_symbol_metrics "X" flatBars 249 ⟨0, 0, 0, 0⟩ = .ok (some r) :=
  c8_theorem ("X") flatBars 249 ⟨0, 0, 0, 0⟩ 249
    (by rw [sortByDate_flatBars]; with_unfolding_all decide)
    (by omega)
    (by
      rw [sortByDate_flatBars]
      with_unfolding_all decide)

/-! ## C2: the SMA windows are pandas-inclusive (`n+1` bars, not `n`) -/

theorem sortByDate_c2Bars : sortByDate c2Bars = c2Bars :=
  sortByDate_eq_self (rangeBars_date_lt (fun i => rfl))

theorem storeOpt_some (q : ℚ) : storeOpt (some q) = pyOptFloat q := rfl

/-- The close mean over the `loc[idx-n : idx]` window, rewritten with the
window length made explicit (`n+1` bars). -/
theorem sma_window (df : List Bar) (idx n : ℕ) (hn : n ≤ idx) (hlen : idx < df.length) :
    listMean ((sliceIncl df (idx - n) idx).map (fun b => b.close)) =
      (((df.drop (idx - n)).take (n + 1)).map (fun b => b.close)).sum / ((n : ℚ) + 1) := by
  unfold sliceIncl listMean
  have e : idx + 1 - (idx - n) = n + 1 := by omega
  rw [e]
  congr 1
  rw [List.length_map, List.length_take, List.length_drop]
  have hmin : min (n + 1) (df.length - (idx - n)) = n + 1 := by omega
  rw [hmin]
  push_cast
  ring

/-- C2 (counterexample): the engine's produced record on `c2Bars` stores
`sma_20 = 10`, the mean of the trailing TWENTY-ONE closes, while the mean of
the trailing twenty closes is `21/2 ≠ 10`. -/
theorem c2_counterexample :
    (∃ r, calculate_symbol_metrics "T" c2Bars 200 ⟨0, 0, 0, 0⟩ = .ok (some r) ∧
      r.sma_20 = some 10)
    ∧ listMean ((sliceIncl c2Bars 181 200).map (fun b => b.close)) = 21 / 2
    ∧ (10 : ℚ) ≠ 21 / 2 := by
  refine ⟨⟨buildRecord "T" c2Bars 200 200 ⟨0, 0, 0, 0⟩ ⟨some 1000, some 1, 0⟩, ?_, ?_⟩,
    ?_, by norm_num⟩
  · rw [engine_eq_ok_some_iff]
    refine ⟨200, ⟨some 1000, some 1, 0⟩, ?_, by omega, ?_, ?_⟩
    · rw [sortByDate_c2Bars]
      with_unfolding_all decide
    · rw [sortByDate_c2Bars]
      with_unfolding_all decide
    · rw [sortByDate_c2Bars]
  · show (calc_moving_averages c2Bars 200).sma_20 = some 10
    with_unfolding_all decide
  · with_unfolding_all decide

/-- C2 (amended): in a produced record (`idx ≥ 200`, in range) each
`sma_n` field is the arithmetic mean of the trailing `n+1` closes — positions
`idx-n .. idx` inclusive, the pandas `.loc` slice — stored through
float-truthiness (an exactly-zero mean becomes null); the insufficient-window
null case is unreachable past the 200-bar gate. -/
theorem c2_theorem (df : List Bar) (idx : ℕ) (h200 : 200 ≤ idx) (hlen : idx < df.length) :
    ((calc_moving_averages df idx).sma_20 =
      pyOptFloat ((((df.drop (idx - 20)).take 21).map (fun b => b.close)).sum / 21))
    ∧ ((calc_moving_averages df idx).sma_50 =
      pyOptFloat ((((df.drop (idx - 50)).take 51).map (fun b => b.close)).sum / 51))
    ∧ ((calc_moving_averages df idx).sma_100 =
      pyOptFloat ((((df.drop (idx - 100)).take 101).map (fun b => b.close)).sum / 101))
    ∧ ((calc_moving_averages df idx).sma_200 =
      pyOptFloat ((((df.drop (idx - 200)).take 201).map (fun b => b.close)).sum / 201)) := by
  refine ⟨?_, ?_, ?_, ?_⟩
  · show storeOpt (if 20 ≤ idx then
        some (listMean ((sliceIncl df (idx - 20) idx).map (fun b => b.close))) else none) = _
    rw [if_pos (show 20 ≤ idx by omega), storeOpt_some, sma_window df idx 20 (by omega) hlen]
    norm_num
  · show storeOpt (if 50 ≤ idx then
        some (listMean ((sliceIncl df (idx - 50) idx).map (fun b => b.close))) else none) = _
    rw [if_pos (show 50 ≤ idx by omega), storeOpt_some, sma_window df idx 50 (by omega) hlen]
    norm_num
  · show storeOpt (if 100 ≤ idx then
        some (listMean ((sliceIncl df (idx - 100) idx).map (fun b => b.close))) else none) = _
    rw [if_pos (show 100 ≤ idx by omega), storeOpt_some, sma_window df idx 100 (by omega) hlen]
    norm_num
  · show storeOpt (if 200 ≤ idx then
        some (listMean ((sliceIncl df (idx - 200) idx).map (fun b => b.close))) else none) = _
    rw [if_pos (show 200 ≤ idx by omega), storeOpt_some, sma_window df idx 200 (by omega) hlen]
    norm_num

/-- C2 (witness): the amended window characterisation instantiated on the flat
series at its last bar. -/
theorem c2_witness :
    (calc_moving_averages flatBars 249).sma_20 =
      pyOptFloat ((((flatBars.drop (249 - 20)).take 21).map (fun b => b.close)).sum / 21) :=
  (c2_theorem flatBars 249 (by omega) (by simp [flatBars, rangeBars])).1

/-! ## C3: the flat 250-day series -/

theorem flatBars_map_close : flatBars.map (fun b => b.close) = List.replicate 250 100 := by
  unfold flatBars rangeBars
  rw [List.map_map]
  show (List.range 250).map (fun _ => (100 : ℚ)) = _
  rw [List.map_const', List.length_range]

theorem flat_slice_close (a b : ℕ) (hb : b < 250) :
    (sliceIncl flatBars a b).map (fun x => x.close) = List.replicate (b + 1 - a) 100 := by
  unfold sliceIncl
  rw [List.map_take, List.map_drop, flatBars_map_close, List.drop_replicate,
    List.take_replicate]
  congr 1
  omega

theorem flat_take_close (k : ℕ) (hk : k ≤ 250) :
    (flatBars.take k).map (fun b => b.close) = List.replicate k 100 := by
  rw [List.map_take, flatBars_map_close, List.take_replicate]
  congr 1
  omega

theorem listMean_replicate (n : ℕ) (c : ℚ) (hn : 0 < n) :
    listMean (List.replicate n c) = c := by
  unfold listMean
  rw [List.sum_replicate, List.length_replicate, nsmul_eq_mul]
  have hne : (n : ℚ) ≠ 0 := Nat.cast_ne_zero.mpr (by omega)
  field_simp

theorem foldl_ewm_const (a c : ℚ) :
    ∀ (n : ℕ) (acc : ℚ), acc = c →
      (List.replicate n c).foldl (fun acc y => (1 - a) * acc + a * y) acc = c := by
  intro n
  induction n with
  | zero =>
    intro acc h
    simpa using h
  | succ m ih =>
    intro acc h
    simp only [List.replicate_succ, List.foldl_cons]
    exact ih _ (by rw [h]; ring)

theorem ewmMean_replicate (span n : ℕ) (c : ℚ) (hn : 0 < n) :
    ewmMean span (List.replicate n c) = c := by
  cases n with
  | zero => omega
  | succ m =>
    simp only [List.replicate_succ, ewmMean]
    exact foldl_ewm_const _ c m c rfl

theorem macdLineAt_flat (i : ℕ) (hi : i < 250) : macdLineAt flatBars i = 0 := by
  unfold macdLineAt
  rw [flat_take_close (i + 1) (by omega)]
  show ewmMean 12 (List.replicate (i + 1) 100) - ewmMean 26 (List.replicate (i + 1) 100) = 0
  rw [ewmMean_replicate 12 (i + 1) 100 (by omega), ewmMean_replicate 26 (i + 1) 100 (by omega)]
  ring

theorem pyRound_zero (n : ℕ) : pyRound 0 n = 0 := by
  unfold pyRound roundHalfEven
  norm_num

theorem macd_values_flat :
    (List.range' (max 26 (249 - 9)) (249 + 1 - max 26 (249 - 9))).map (macdLineAt flatBars) =
      List.replicate 10 0 := by
  rw [List.eq_replicate_iff]
  constructor
  · simp [List.length_range']
  · intro b hb
    rw [List.mem_map] at hb
    obtain ⟨i, hi, rfl⟩ := hb
    rw [List.mem_range'] at hi
    obtain ⟨j, hj, rfl⟩ := hi
    exact macdLineAt_flat _ (by omega)

theorem calc_macd_flat : calc_macd flatBars 249 = ⟨some 0, some 0, some 0, 0, 0⟩ := by
  unfold calc_macd
  rw [if_neg (by omega), if_neg (by omega)]
  simp only [macd_values_flat, macdLineAt_flat 249 (by omega)]
  with_unfolding_all decide

theorem bbVariance_flat : bbVariance flatBars 249 = 0 := by
  with_unfolding_all decide

theorem bbStd_flat : bbStd flatBars 249 = 0 := by
  unfold bbStd
  rw [bbVariance_flat]
  norm_num

theorem bbMiddle_flat : bbMiddle flatBars 249 = 100 := by
  with_unfolding_all decide

theorem bbBandwidth_flat : bbBandwidth flatBars 249 = 0 := by
  unfold bbBandwidth bbUpper bbLower
  rw [bbStd_flat, bbMiddle_flat]
  norm_num

theorem pyRoundR_zero (n : ℕ) : pyRoundR 0 n = 0 := by
  unfold pyRoundR roundHalfEvenR
  norm_num

theorem bollinger_flat_bandwidth :
    (calc_bollinger_bands flatBars 249).bb_bandwidth_percent = some 0 := by
  unfold calc_bollinger_bands
  rw [if_neg (by omega)]
  show some (pyRoundR (bbBandwidth flatBars 249) 4) = some 0
  rw [bbBandwidth_flat, pyRoundR_zero]

theorem bollinger_flat_squeeze : (calc_bollinger_bands flatBars 249).is_bb_squeeze = 1 := by
  unfold calc_bollinger_bands
  rw [if_neg (by omega)]
  show (if bbBandwidth flatBars 249 < 10 then (1 : ℤ) else 0) = 1
  rw [bbBandwidth_flat, if_pos (by norm_num)]

theorem ma_sma50_flat : (calc_moving_averages flatBars 249).sma_50 = some 100 := by
  show storeOpt (if 50 ≤ 249 then
    some (listMean ((sliceIncl flatBars (249 - 50) 249).map (fun x => x.close)))
    else none) = some 100
  rw [if_pos (by omega), flat_slice_close (249 - 50) 249 (by omega),
    listMean_replicate _ _ (by omega)]
  with_unfolding_all decide

theorem ma_sma200_flat : (calc_moving_averages flatBars 249).sma_200 = some 100 := by
  show storeOpt (if 200 ≤ 249 then
    some (listMean ((sliceIncl flatBars (249 - 200) 249).map (fun x => x.close)))
    else none) = some 100
  rw [if_pos (by omega), flat_slice_close (249 - 200) 249 (by omega),
    listMean_replicate _ _ (by omega)]
  with_unfolding_all decide

theorem darvas_flat : (calc_darvas flatBars 249).darvas_position_percent = some 50 := by
  with_unfolding_all decide

theorem atr_ext_flat :
    (calc_atr_extension flatBars 249 (calc_moving_averages flatBars 249).sma_50
      (calc_volatility flatBars 249).atr_14).atr_extension_from_sma50 = none := by
  show storeOpt (if truthyOpt (calc_moving_averages flatBars 249).sma_50 ∧
      truthyOpt (calc_volatility flatBars 249).atr_14 ∧ 0 < (bar flatBars 249).close then
      some (if 0 < ((calc_volatility flatBars 249).atr_14).getD 0 then
        ((bar flatBars 249).close / ((calc_moving_averages flatBars 249).sma_50).getD 0 - 1) /
          (((calc_volatility flatBars 249).atr_14).getD 0 / (bar flatBars 249).close)
      else 0) else none) = none
  have hatr : (calc_volatility flatBars 249).atr_14 = none := by
    with_unfolding_all decide
  rw [hatr]
  simp [truthyOpt, storeOpt]

theorem stage_flat :
    (calc_stage flatBars 249 (calc_moving_averages flatBars 249).sma_50
      (calc_moving_averages flatBars 249).sma_200
      (calc_darvas flatBars 249).darvas_position_percent
      (calc_atr_extension flatBars 249 (calc_moving_averages flatBars 249).sma_50
        (calc_volatility flatBars 249).atr_14).atr_extension_from_sma50).stage_detail
      = "3" := by
  rw [atr_ext_flat, darvas_flat, ma_sma50_flat, ma_sma200_flat]
  with_unfolding_all decide

/-- The flat-series engine run produces exactly the `buildRecord` body. -/
theorem engine_flat_spine :
    calculate_symbol_metrics "X" flatBars 249 (calculate_universe_metrics flatBars 249) =
      .ok (some (buildRecord "X" flatBars 249 249 (calculate_universe_metrics flatBars 249)
        ⟨some 1000, some 1, 0⟩)) := by
  rw [engine_eq_ok_some_iff]
  refine ⟨249, ⟨some 1000, some 1, 0⟩, ?_, by omega, ?_, ?_⟩
  · rw [sortByDate_flatBars]
    with_unfolding_all decide
  · rw [sortByDate_flatBars]
    with_unfolding_all decide
  · rw [sortByDate_flatBars]

/-- C3 (counterexample): on the flat 250-day series the produced record does
NOT have `stage_detail = "1"` nor `atr_14 = 0` as the claim states. -/
theorem c3_counterexample :
    ∃ r, calculate_symbol_metrics "X" flatBars 249
        (calculate_universe_metrics flatBars 249) = .ok (some r)
      ∧ r.stage_detail ≠ "1" ∧ r.atr_14 ≠ some 0 := by
  refine ⟨_, engine_flat_spine, ?_, ?_⟩
  · show (calc_stage flatBars 249 (calc_moving_averages flatBars 249).sma_50
      (calc_moving_averages flatBars 249).sma_200
      (calc_darvas flatBars 249).darvas_position_percent
      (calc_atr_extension flatBars 249 (calc_moving_averages flatBars 249).sma_50
        (calc_volatility flatBars 249).atr_14).atr_extension_from_sma50).stage_detail ≠ "1"
    rw [stage_flat]
    decide
  · show (calc_volatility flatBars 249).atr_14 ≠ some 0
    have h : (calc_volatility flatBars 249).atr_14 = none := by
      with_unfolding_all decide
    rw [h]
    decide

/-- C3 (amended): on the flat constant-100 series of 250 days the last-day
record has `atr_14` stored as NULL (the computed ATR of 0 collapses under
float-truthiness), ADR% = 0, RSI-14 = 100, Bollinger bandwidth% = 0 with the
squeeze flag set, MACD line/signal/histogram all 0, ADX = 0, VCP score 0, and
`stage_detail = "3"` (both SMAs equal the close, so the close is neither above
nor below them and the tree lands in the Stage-3 branch, not Stage 1). -/
theorem c3_theorem :
    ∃ r, calculate_symbol_metrics "X" flatBars 249
        (calculate_universe_metrics flatBars 249) = .ok (some r)
      ∧ r.atr_14 = none
      ∧ r.adr_percent = 0
      ∧ r.rsi_14 = some 100
      ∧ r.bb_bandwidth_percent = some 0
      ∧ r.is_bb_squeeze = 1
      ∧ r.macd_line = some 0
      ∧ r.macd_signal = some 0
      ∧ r.macd_histogram = some 0
      ∧ r.adx_14 = some 0
      ∧ r.vcp_score = 0
      ∧ r.stage_detail = "3" := by
  refine ⟨_, engine_flat_spine, ?_, ?_, ?_, ?_, ?_, ?_, ?_, ?_, ?_, ?_, ?_⟩
  · show (calc_volatility flatBars 249).atr_14 = none
    with_unfolding_all decide
  · show (calc_volatility flatBars 249).adr_percent = 0
    with_unfolding_all decide
  · show (calc_rsi flatBars 249).rsi_14 = some 100
    with_unfolding_all decide
  · exact bollinger_flat_bandwidth
  · exact bollinger_flat_squeeze
  · show (calc_macd flatBars 249).macd_line = some 0
    rw [calc_macd_flat]
  · show (calc_macd flatBars 249).macd_signal = some 0
    rw [calc_macd_flat]
  · show (calc_macd flatBars 249).macd_histogram = some 0
    rw [calc_macd_flat]
  · show (calc_adx flatBars 249).adx_14 = some 0
    with_unfolding_all decide
  · show calc_vcp_score flatBars 249 = 0
    with_unfolding_all decide
  · exact stage_flat

/-! ## C10: McClellan summation is assigned the oscillator value -/

theorem countP_pos_char_nat :
    ∀ (l : List ℕ) (p : ℕ → Bool) (i : ℕ), i ≤ l.length →
      (∀ j (h : j < l.length), (p l[j] = true ↔ j < i)) → l.countP p = i := by
  intro l
  induction l with
  | nil =>
    intro p i hi _
    simp only [List.length_nil, Nat.le_zero] at hi
    simp [hi]
  | cons x xs ih =>
    intro p i hi hchar
    rw [List.countP_cons]
    cases i with
    | zero =>
      have hx : ¬ p x = true := by
        have := (hchar 0 (by simp)).not
        simpa using this
      have hxs : xs.countP p = 0 := by
        refine ih p 0 (by omega) ?_
        intro j hj
        have := hchar (j + 1) (by simpa using Nat.succ_lt_succ hj)
        simpa using this
      simp [hxs, hx]
    | succ k =>
      have hx : p x = true := (hchar 0 (by simp)).mpr (by omega)
      have hxs : xs.countP p = k := by
        refine ih p k (by simpa using hi) ?_
        intro j hj
        have := hchar (j + 1) (by simpa using Nat.succ_lt_succ hj)
        simp only [List.getElem_cons_succ] at this
        rw [this]
        omega
      simp [hxs, hx]

theorem sorted_nat_findIdx_countP {l : List ℕ} {target i : ℕ}
    (hsorted : l.Pairwise (· < ·))
    (hf : l.findIdx? (fun d => d = target) = some i) :
    l.countP (fun d => d < target) = i := by
  rw [List.findIdx?_eq_some_iff_getElem] at hf
  obtain ⟨hi, hpi, hprev⟩ := hf
  simp only [decide_eq_true_eq] at hpi
  have hget := List.pairwise_iff_get.mp hsorted
  refine countP_pos_char_nat l _ i (by omega) ?_
  intro j hj
  simp only [decide_eq_true_eq]
  constructor
  · intro hlt
    by_contra hge
    rcases Nat.lt_or_ge i j with hij | hij
    · have := hget ⟨i, hi⟩ ⟨j, hj⟩ hij
      simp only [List.get_eq_getElem] at this
      omega
    · have : j = i := by omega
      subst this
      omega
  · intro hji
    have := hget ⟨j, hj⟩ ⟨i, hi⟩ hji
    simp only [List.get_eq_getElem] at this
    omega

theorem uniqueDates_sorted_lt (table : List Bar) :
    (uniqueDates table).Pairwise (· < ·) := by
  unfold uniqueDates
  have hsorted : List.Sorted (· ≤ ·)
      (List.insertionSort (fun a b => a ≤ b) (table.map (fun b => b.date)).dedup) :=
    List.sorted_insertionSort _ _
  have hnodup : (List.insertionSort (fun a b => a ≤ b)
      (table.map (fun b => b.date)).dedup).Nodup :=
    (List.perm_insertionSort _ _).symm.nodup (List.nodup_dedup _)
  exact List.Sorted.lt_of_le hsorted hnodup

theorem uniqueDates_countP (table : List Bar) (target : ℕ) :
    (uniqueDates table).countP (fun d => d < target) =
      (table.map (fun b => b.date)).dedup.countP (fun d => d < target) :=
  (List.perm_insertionSort _ _).countP_eq _

theorem mem_uniqueDates {table : List Bar} {d : ℕ} (h : ∃ b ∈ table, b.date = d) :
    d ∈ uniqueDates table := by
  unfold uniqueDates
  rw [List.mem_insertionSort, List.mem_dedup, List.mem_map]
  obtain ⟨b, hb, hbd⟩ := h
  exact ⟨b, hb, hbd⟩

/-- Fields written to every record through the second aggregator pass. -/
theorem rs_percentiles_preserves_universe (ms : List MetricRec) (m2 : MetricRec)
    (hm : m2 ∈ calculate_rs_percentiles ms) :
    ∃ m ∈ ms, m2.universe_up_count = m.universe_up_count ∧
      m2.universe_down_count = m.universe_down_count ∧
      m2.mcclellan_oscillator = m.mcclellan_oscillator ∧
      m2.mcclellan_summation = m.mcclellan_summation := by
  unfold calculate_rs_percentiles at hm
  by_cases hc : collectChanges ms = []
  · rw [if_pos hc] at hm
    exact ⟨m2, hm, rfl, rfl, rfl, rfl⟩
  · rw [if_neg hc] at hm
    rw [List.mem_map] at hm
    obtain ⟨m, hm1, hm2⟩ := hm
    refine ⟨m, hm1, ?_⟩
    subst hm2
    cases hp : percentileMap (rsSorted (collectChanges ms)) m.symbol with
    | none => rw [rsUpdate_eq_of_none _ _ hp]; exact ⟨rfl, rfl, rfl, rfl⟩
    | some p =>
      rw [rsUpdate_eq_of_some _ _ _ hp]
      unfold rsApply
      by_cases hadr : ¬ m.adr_percent = 0 ∧ 0 < m.adr_percent <;>
        simp [hadr]

theorem processStep_error_absorb (ohlcv_data : List Bar) (target : ℕ)
    (univ : UniverseMetrics) (e : String) :
    ∀ (l : List String) (errs1 : List String),
      (l.foldl (processStep ohlcv_data target univ) (errs1, .error e)).2 = .error e := by
  intro l
  induction l with
  | nil => intro errs1; rfl
  | cons t ts iht =>
    intro errs1
    rw [List.foldl_cons]
    exact iht errs1

theorem processSymbols_ok_universe (symbols : List String) (ohlcv_data : List Bar)
    (target : ℕ) (univ : UniverseMetrics) :
    ∀ (errs0 : List String) (ms0 : List MetricRec),
      (∀ m ∈ ms0, m.universe_up_count = univ.universe_up_count ∧
        m.universe_down_count = univ.universe_down_count ∧
        m.mcclellan_oscillator = univ.mcclellan_oscillator ∧
        m.mcclellan_summation = univ.mcclellan_summation) →
      ∀ errs ms,
        symbols.foldl (processStep ohlcv_data target univ) (errs0, .ok ms0) = (errs, .ok ms) →
        ∀ m ∈ ms, m.universe_up_count = univ.universe_up_count ∧
          m.universe_down_count = univ.universe_down_count ∧
          m.mcclellan_oscillator = univ.mcclellan_oscillator ∧
          m.mcclellan_summation = univ.mcclellan_summation := by
  induction symbols with
  | nil =>
    intro errs0 ms0 h0 errs ms hfold
    rw [List.foldl_nil] at hfold
    injection hfold with h1 h2
    injection h2 with h3
    subst h3
    exact h0
  | cons s rest ih =>
    intro errs0 ms0 h0 errs ms hfold
    rw [List.foldl_cons] at hfold
    by_cases hfail : symbolFails ohlcv_data target s
    · have hstep : processStep ohlcv_data target univ (errs0, .ok ms0) s =
          (errs0 ++ [s ++ ": No data for " ++ toString target], .ok ms0) := by
        unfold processStep
        simp [hfail]
      rw [hstep] at hfold
      exact ih _ _ h0 errs ms hfold
    · cases heng : calculate_symbol_metrics s (ohlcv_data.filter (fun b => b.symbol = s))
          target univ with
      | error e =>
        have hstep : processStep ohlcv_data target univ (errs0, .ok ms0) s =
            (errs0, .error e) := by
          unfold processStep
          simp [hfail, heng]
        rw [hstep] at hfold
        exfalso
        have := processStep_error_absorb ohlcv_data target univ e rest errs0
        rw [hfold] at this
        simp at this
      | ok o =>
        cases o with
        | none =>
          have hstep : processStep ohlcv_data target univ (errs0, .ok ms0) s =
              (errs0, .ok ms0) := by
            unfold processStep
            simp [hfail, heng]
          rw [hstep] at hfold
          exact ih _ _ h0 errs ms hfold
        | some m =>
          have hstep : processStep ohlcv_data target univ (errs0, .ok ms0) s =
              (errs0, .ok (ms0 ++ [m])) := by
            unfold processStep
            simp [hfail, heng]
          rw [hstep] at hfold
          refine ih _ _ ?_ errs ms hfold
          intro m2 hm2
          rw [List.mem_append] at hm2
          cases hm2 with
          | inl h => exact h0 m2 h
          | inr h =>
            rw [List.mem_singleton] at h
            subst h
            obtain ⟨i, vol, hfi, hlt, hv, hr⟩ := engine_eq_ok_some_iff.mp heng
            rw [hr]
            exact ⟨rfl, rfl, rfl, rfl⟩

/-- C10: the McClellan summation merged into every record is ASSIGNED the
oscillator value (both 0 when the target has fewer than 40 earlier distinct
dates or no rows), and the four breadth figures are identical across all
records of a run. -/
theorem c10_theorem :
    (∀ (table : List Bar) (target : ℕ),
      (calculate_universe_metrics table target).mcclellan_summation =
        (calculate_universe_metrics table target).mcclellan_oscillator)
    ∧ (∀ (table : List Bar) (target : ℕ),
        table.filter (fun b => b.date = target) = [] →
          calculate_universe_metrics table target = ⟨0, 0, 0, 0⟩)
    ∧ (∀ (table : List Bar) (target : ℕ),
        (∃ b ∈ table, b.date = target) →
        (table.map (fun b => b.date)).dedup.countP (fun d => d < target) < 40 →
          (calculate_universe_metrics table target).mcclellan_oscillator = 0 ∧
          (calculate_universe_metrics table target).mcclellan_summation = 0)
    ∧ (∀ (symbols : List String) (ohlcv_data : List Bar) (target : ℕ)
        (univ : UniverseMetrics) (errs : List String) (ms : List MetricRec),
        processSymbols symbols ohlcv_data target univ = (errs, .ok ms) →
        ∀ m ∈ calculate_rs_percentiles ms,
          m.universe_up_count = univ.universe_up_count ∧
          m.universe_down_count = univ.universe_down_count ∧
          m.mcclellan_oscillator = univ.mcclellan_oscillator ∧
          m.mcclellan_summation = univ.mcclellan_summation) := by
  refine ⟨?_, ?_, ?_, ?_⟩
  · intro table target
    unfold calculate_universe_metrics
    by_cases h1 : table.filter (fun b => b.date = target) = []
    · rw [if_pos h1]
    · rw [if_neg h1]
      by_cases h2 : targetIdxZ table target < 40
      · rw [if_pos h2]
      · rw [if_neg h2]
  · intro table target h1
    unfold calculate_universe_metrics
    rw [if_pos h1]
  · intro table target hpresent hcount
    have hmem : target ∈ uniqueDates table := mem_uniqueDates hpresent
    have hfidx : ∃ i, (uniqueDates table).findIdx? (fun d => d = target) = some i := by
      cases hf : (uniqueDates table).findIdx? (fun d => d = target) with
      | none =>
        exfalso
        have := List.findIdx?_eq_none_iff.mp hf target hmem
        simp at this
      | some i => exact ⟨i, rfl⟩
    obtain ⟨i, hf⟩ := hfidx
    have hieq : i < 40 := by
      have := sorted_nat_findIdx_countP (uniqueDates_sorted_lt table) hf
      rw [uniqueDates_countP] at this
      omega
    have htidx : targetIdxZ table target < 40 := by
      unfold targetIdxZ
      rw [hf]
      show (i : ℤ) < 40
      exact_mod_cast hieq
    unfold calculate_universe_metrics
    by_cases h1 : table.filter (fun b => b.date = target) = []
    · rw [if_pos h1]
      exact ⟨rfl, rfl⟩
    · rw [if_neg h1, if_pos htidx]
      exact ⟨rfl, rfl⟩
  · intro symbols ohlcv_data target univ errs ms hps m hm
    obtain ⟨m0, hm0, he1, he2, he3, he4⟩ := rs_percentiles_preserves_universe ms m hm
    have := processSymbols_ok_universe symbols ohlcv_data target univ [] []
      (by intro m hmem; cases hmem) errs ms hps m0 hm0
    exact ⟨he1.trans this.1, he2.trans this.2.1, he3.trans this.2.2.1, he4.trans this.2.2.2⟩

/-- C10 (witness): the small 5-day table has fewer than 40 earlier distinct
dates at day 4, so both McClellan figures are 0. -/
theorem c10_witness :
    (calculate_universe_metrics smallTable 4).mcclellan_oscillator = 0 ∧
      (calculate_universe_metrics smallTable 4).mcclellan_summation = 0 :=
  c10_theorem.2.2.1 smallTable 4 (by with_unfolding_all decide)
    (by with_unfolding_all decide)

/-! ## C7: success semantics, fatal vs per-symbol errors -/

/-- The record the loop keeps for one symbol: none on a "No data" failure, on
an insufficient-history skip, or on an exception; the built record otherwise. -/
noncomputable def symbolOutcome (ohlcv_data : List Bar) (target : ℕ) (univ : UniverseMetrics)
    (s : String) : Option MetricRec :=
  if symbolFails ohlcv_data target s then none
  else
    match calculate_symbol_metrics s (ohlcv_data.filter (fun b => b.symbol = s)) target univ with
    | .ok (some m) => some m
    | _ => none

/-- A successful per-symbol loop accumulates exactly the "No data" messages of
the failing symbols — insufficient-history symbols contribute NO error — and
collects exactly the per-symbol engine outputs, independent of other symbols'
failures. -/
theorem processSymbols_ok_char (ohlcv_data : List Bar) (target : ℕ) (univ : UniverseMetrics) :
    ∀ (symbols : List String) (errs0 : List String) (ms0 : List MetricRec)
      (errs : List String) (ms : List MetricRec),
      symbols.foldl (processStep ohlcv_data target univ) (errs0, .ok ms0) = (errs, .ok ms) →
      errs = errs0 ++ (symbols.filter (fun s => symbolFails ohlcv_data target s)).map
          (fun s => s ++ ": No data for " ++ toString target)
      ∧ ms = ms0 ++ symbols.filterMap (symbolOutcome ohlcv_data target univ) := by
  intro symbols
  induction symbols with
  | nil =>
    intro errs0 ms0 errs ms hfold
    rw [List.foldl_nil] at hfold
    injection hfold with h1 h2
    injection h2 with h3
    subst h1
    subst h3
    simp
  | cons s rest ih =>
    intro errs0 ms0 errs ms hfold
    rw [List.foldl_cons] at hfold
    by_cases hfail : symbolFails ohlcv_data target s
    · have hstep : processStep ohlcv_data target univ (errs0, .ok ms0) s =
          (errs0 ++ [s ++ ": No data for " ++ toString target], .ok ms0) := by
        unfold processStep
        simp [hfail]
      rw [hstep] at hfold
      obtain ⟨h1, h2⟩ := ih _ _ _ _ hfold
      constructor
      · rw [h1, List.filter_cons_of_pos (by simpa using hfail), List.map_cons,
          List.append_assoc]
        rfl
      · rw [h2, List.filterMap_cons_none]
        unfold symbolOutcome
        simp [hfail]
    · cases heng : calculate_symbol_metrics s (ohlcv_data.filter (fun b => b.symbol = s))
          target univ with
      | error e =>
        have hstep : processStep ohlcv_data target univ (errs0, .ok ms0) s =
            (errs0, .error e) := by
          unfold processStep
          simp [hfail, heng]
        rw [hstep] at hfold
        exfalso
        have := processStep_error_absorb ohlcv_data target univ e rest errs0
        rw [hfold] at this
        simp at this
      | ok o =>
        cases o with
        | none =>
          have houtcome : symbolOutcome ohlcv_data target univ s = none := by
            unfold symbolOutcome
            simp [hfail, heng]
          have hstep : processStep ohlcv_data target univ (errs0, .ok ms0) s =
              (errs0, .ok ms0) := by
            unfold processStep
            simp [hfail, heng]
          rw [hstep] at hfold
          obtain ⟨h1, h2⟩ := ih _ _ _ _ hfold
          refine ⟨by rw [h1, List.filter_cons_of_neg (by simpa using hfail)], ?_⟩
          rw [h2, List.filterMap_cons_none houtcome]
        | some m =>
          have houtcome : symbolOutcome ohlcv_data target univ s = some m := by
            unfold symbolOutcome
            simp [hfail, heng]
          have hstep : processStep ohlcv_data target univ (errs0, .ok ms0) s =
              (errs0, .ok (ms0 ++ [m])) := by
            unfold processStep
            simp [hfail, heng]
          rw [hstep] at hfold
          obtain ⟨h1, h2⟩ := ih _ _ _ _ hfold
          refine ⟨by rw [h1, List.filter_cons_of_neg (by simpa using hfail)], ?_⟩
          rw [h2, List.filterMap_cons_some houtcome, List.append_assoc]
          rfl

def emptyStore : Store := fun _ => none

theorem sortByDate_smallTable : sortByDate smallTable = smallTable :=
  sortByDate_eq_self (rangeBars_date_lt (fun i => rfl))

/-- C7 (counterexample): a run over one symbol whose series has the target
present but far fewer than 200 prior bars fails to produce any record, yet the
errors list stays EMPTY — the insufficient-history failure is not appended. -/
theorem c7_counterexample :
    (calculate_metrics_for_date ["A"] smallTable emptyStore 4 none).1.errors = []
    ∧ (calculate_metrics_for_date ["A"] smallTable emptyStore 4 none).1.success = false
    ∧ (calculate_metrics_for_date ["A"] smallTable emptyStore 4 none).2 = emptyStore := by
  have hres : resolveSymbols ["A"] none = ["A"] := rfl
  have hfetch : fetch_ohlcv_data smallTable ["A"] (4 - 375) 4 = smallTable := by
    with_unfolding_all decide
  have hfail : symbolFails smallTable 4 "A" = false := by
    with_unfolding_all decide
  have hfil : smallTable.filter (fun b => b.symbol = "A") = smallTable := by
    with_unfolding_all decide
  have heng : calculate_symbol_metrics "A" (smallTable.filter (fun b => b.symbol = "A")) 4
      (calculate_universe_metrics smallTable 4) = .ok none := by
    rw [engine_eq_ok_none_iff]
    right
    refine ⟨4, ?_, by omega⟩
    rw [hfil, sortByDate_smallTable]
    with_unfolding_all decide
  have hps : processSymbols ["A"] smallTable 4 (calculate_universe_metrics smallTable 4) =
      ([], .ok []) := by
    unfold processSymbols
    rw [List.foldl_cons, List.foldl_nil]
    unfold processStep
    simp [hfail, heng]
  simp only [calculate_metrics_for_date, hres]
  rw [if_neg (by with_unfolding_all decide : ¬ (["A"] : List String) = [])]
  rw [hfetch]
  rw [if_neg (by with_unfolding_all decide : ¬ smallTable = [])]
  rw [hps]
  exact ⟨rfl, rfl, rfl⟩

/-- C7 (amended): `success = true` iff the run persisted at least one record;
an empty resolved universe or an empty bulk load fails fast with a single
error and no persistence; in a loop that raises no exception, the errors are
EXACTLY the "No data" messages of symbols whose frame misses the target date —
insufficient-history symbols are silently skipped with no error entry — and
the collected records are exactly the per-symbol engine outputs, unaffected by
other symbols' failures. -/
theorem c7_theorem :
    (∀ (active : List String) (table : List Bar) (store : Store) (target : ℕ)
      (symbols? : Option (List String)),
      ((calculate_metrics_for_date active table store target symbols?).1.success = true ↔
        0 < (calculate_metrics_for_date active table store target symbols?).1.records_inserted
          + (calculate_metrics_for_date active table store target symbols?).1.records_updated))
    ∧ (∀ active table store target symbols?,
        resolveSymbols active symbols? = [] →
        (calculate_metrics_for_date active table store target symbols?).1.success = false
        ∧ (calculate_metrics_for_date active table store target symbols?).1.errors =
            ["No active securities found"]
        ∧ (calculate_metrics_for_date active table store target symbols?).2 = store)
    ∧ (∀ active table store target symbols?,
        ¬ resolveSymbols active symbols? = [] →
        fetch_ohlcv_data table (resolveSymbols active symbols?) (target - 375) target = [] →
        (calculate_metrics_for_date active table store target symbols?).1.success = false
        ∧ (calculate_metrics_for_date active table store target symbols?).1.errors =
            ["No OHLCV data found for " ++ toString target]
        ∧ (calculate_metrics_for_date active table store target symbols?).2 = store)
    ∧ (∀ active table store target symbols? errs ms,
        ¬ resolveSymbols active symbols? = [] →
        ¬ fetch_ohlcv_data table (resolveSymbols active symbols?) (target - 375) target = [] →
        processSymbols (resolveSymbols active symbols?)
          (fetch_ohlcv_data table (resolveSymbols active symbols?) (target - 375) target)
          target
          (calculate_universe_metrics
            (fetch_ohlcv_data table (resolveSymbols active symbols?) (target - 375) target)
            target) = (errs, .ok ms) →
        (calculate_metrics_for_date active table store target symbols?).1.errors =
          ((resolveSymbols active symbols?).filter (fun s =>
            symbolFails (fetch_ohlcv_data table (resolveSymbols active symbols?)
              (target - 375) target) target s)).map
            (fun s => s ++ ": No data for " ++ toString target)
        ∧ ms = (resolveSymbols active symbols?).filterMap
            (symbolOutcome (fetch_ohlcv_data table (resolveSymbols active symbols?)
              (target - 375) target) target
              (calculate_universe_metrics
                (fetch_ohlcv_data table (resolveSymbols active symbols?)
                  (target - 375) target) target))) := by
  have hchar := processSymbols_ok_char
  refine ⟨?_, ?_, ?_, ?_⟩
  · intro active table store target symbols?
    unfold calculate_metrics_for_date
    set syms := resolveSymbols active symbols? with hsyms
    by_cases h1 : syms = []
    · simp [if_pos h1]
    · simp only [if_neg h1]
      set fetched := fetch_ohlcv_data table syms (target - 375) target with hfetched
      by_cases h2 : fetched = []
      · simp [if_pos h2]
      · simp only [if_neg h2]
        cases hps : processSymbols syms fetched target
            (calculate_universe_metrics fetched target) with
        | mk errs res =>
          cases res with
          | error e => simp
          | ok all0 =>
            by_cases h3 : (if all0 = [] then all0 else calculate_rs_percentiles all0) = []
            · simp [if_pos h3]
            · simp only [if_neg h3]
              constructor
              · intro _
                have hcnt := save_foldl_counts target
                  (if all0 = [] then all0 else calculate_rs_percentiles all0) store 0 0
                have hlen : 0 <
                    (if all0 = [] then all0 else calculate_rs_percentiles all0).length := by
                  cases hl : (if all0 = [] then all0 else calculate_rs_percentiles all0) with
                  | nil => exact absurd hl h3
                  | cons a t => simp
                unfold save_metrics_to_db
                omega
              · intro _
                trivial
  · intro active table store target symbols? h1
    unfold calculate_metrics_for_date
    simp only [if_pos h1]
    exact ⟨trivial, trivial, trivial⟩
  · intro active table store target symbols? h1 h2
    unfold calculate_metrics_for_date
    simp only [if_neg h1, if_pos h2]
    exact ⟨trivial, trivial, trivial⟩
  · intro active table store target symbols? errs ms h1 h2 hps
    obtain ⟨herrs, hms⟩ := hchar _ target _ _ [] [] errs ms hps
    refine ⟨?_, by simpa using hms⟩
    unfold calculate_metrics_for_date
    simp only [if_neg h1, if_neg h2, hps]
    by_cases h3 : (if ms = [] then ms else calculate_rs_percentiles ms) = []
    · simp only [if_pos h3]
      simpa using herrs
    · simp only [if_neg h3]
      simpa using herrs

/-- C7 (witness): the empty-universe fast-fail applied concretely. -/
theorem c7_witness :
    (calculate_metrics_for_date [] smallTable emptyStore 4 none).1.success = false
    ∧ (calculate_metrics_for_date [] smallTable emptyStore 4 none).1.errors =
        ["No active securities found"]
    ∧ (calculate_metrics_for_date [] smallTable emptyStore 4 none).2 = emptyStore :=
  c7_theorem.2.1 [] smallTable emptyStore 4 none rfl

/-! ## C5: the ranking pass -/

theorem round_ge_floor (q : ℚ) : ⌊q⌋ ≤ round q := by
  rw [round_eq]
  exact Int.floor_mono (by linarith)

theorem roundHalfEven_ge (A : ℤ) (q : ℚ) (h : (A : ℚ) ≤ q) : A ≤ roundHalfEven q := by
  unfold roundHalfEven
  have hfl : A ≤ ⌊q⌋ := Int.le_floor.mpr h
  by_cases ht : q - ⌊q⌋ = 1 / 2
  · rw [if_pos ht]
    by_cases he : ⌊q⌋ % 2 = 0
    · rw [if_pos he]; exact hfl
    · rw [if_neg he]; omega
  · rw [if_neg ht]
    exact le_trans hfl (round_ge_floor q)

theorem roundHalfEven_le (B : ℤ) (q : ℚ) (h : q ≤ (B : ℚ)) : roundHalfEven q ≤ B := by
  unfold roundHalfEven
  by_cases ht : q - ⌊q⌋ = 1 / 2
  · rw [if_pos ht]
    have h2 : (⌊q⌋ : ℚ) = q - 1 / 2 := by linarith
    have h4 : ⌊q⌋ < B := by
      have h3 : (⌊q⌋ : ℚ) < (B : ℚ) := by rw [h2]; linarith
      exact_mod_cast h3
    by_cases he : ⌊q⌋ % 2 = 0
    · rw [if_pos he]; omega
    · rw [if_neg he]; omega
  · rw [if_neg ht, round_eq, Int.floor_le_iff]
    push_cast
    linarith

theorem pctOfRank_mem_Icc (t r : ℕ) (h : r < t) :
    0 ≤ pctOfRank t r ∧ pctOfRank t r ≤ 100 := by
  unfold pctOfRank
  by_cases ht : 1 < t
  · rw [if_pos ht]
    have h1 : (0 : ℚ) < (t : ℚ) - 1 := by
      have : (1 : ℚ) < (t : ℚ) := by exact_mod_cast ht
      linarith
    constructor
    · exact mul_nonneg (div_nonneg (by positivity) (le_of_lt h1)) (by norm_num)
    · have hr : (r : ℚ) ≤ (t : ℚ) - 1 := by
        have : (r : ℚ) + 1 ≤ (t : ℚ) := by exact_mod_cast h
        linarith
      have hd : (r : ℚ) / ((t : ℚ) - 1) ≤ 1 := (div_le_one h1).mpr hr
      calc (r : ℚ) / ((t : ℚ) - 1) * 100 ≤ 1 * 100 :=
            mul_le_mul_of_nonneg_right hd (by norm_num)
        _ = 100 := by norm_num
  · rw [if_neg ht]
    norm_num

theorem pyRound2_mem_Icc (q : ℚ) (h0 : 0 ≤ q) (h1 : q ≤ 100) :
    0 ≤ pyRound q 2 ∧ pyRound q 2 ≤ 100 := by
  unfold pyRound
  have hA : (0 : ℤ) ≤ roundHalfEven (q * 10 ^ 2) :=
    roundHalfEven_ge 0 _ (by push_cast; nlinarith)
  have hB : roundHalfEven (q * 10 ^ 2) ≤ 10000 :=
    roundHalfEven_le 10000 _ (by push_cast; nlinarith)
  constructor
  · apply div_nonneg _ (by norm_num)
    exact_mod_cast hA
  · rw [div_le_iff (by norm_num : (0 : ℚ) < 10 ^ 2)]
    have hB2 : (roundHalfEven (q * 10 ^ 2) : ℚ) ≤ 10000 := by exact_mod_cast hB
    linarith

theorem foldl_upd_find (t : ℕ) :
    ∀ (l : List (ℕ × (String × ℚ))) (acc : String → Option ℚ) (s : String),
      (l.foldl (fun acc e => fun s => if s = e.2.1 then some (pctOfRank t e.1) else acc s)
        acc) s
      = match l.reverse.find? (fun e => s = e.2.1) with
        | some e => some (pctOfRank t e.1)
        | none => acc s := by
  intro l
  induction l with
  | nil => intro acc s; rfl
  | cons a l2 ih =>
    intro acc s
    rw [List.foldl_cons, List.reverse_cons, List.find?_append, ih]
    cases hf : List.find? (fun e => decide (s = e.2.1)) l2.reverse with
    | none =>
      simp only [Option.none_or]
      by_cases hs : s = a.2.1
      · simp [List.find?_cons, hs]
      · simp [List.find?_cons, hs]
    | some e => rfl

theorem percentileMap_eq_find (sorted : List (String × ℚ)) (s : String) :
    percentileMap sorted s =
      match sorted.enum.reverse.find? (fun e => s = e.2.1) with
      | some e => some (pctOfRank sorted.length e.1)
      | none => none :=
  foldl_upd_find sorted.length sorted.enum (fun _ => none) s

theorem find_eq_some_of_unique {α : Type} (p : α → Bool) (l : List α) (x : α)
    (hx : x ∈ l) (hpx : p x = true) (hu : ∀ y ∈ l, p y = true → y = x) :
    l.find? p = some x := by
  induction l with
  | nil => cases hx
  | cons a t ih =>
    by_cases ha : p a = true
    · have hax : a = x := hu a (List.mem_cons_self a t) ha
      rw [List.find?_cons, ha, hax]
    · have hxt : x ∈ t := by
        cases List.mem_cons.mp hx with
        | inl h => exact absurd (h ▸ hpx) (by simpa [h] using ha)
        | inr h => exact h
      rw [List.find?_cons]
      rw [Bool.not_eq_true] at ha
      rw [ha]
      exact ih hxt (fun y hy hpy => hu y (List.mem_cons_of_mem a hy) hpy)

theorem percentileMap_rank (sorted : List (String × ℚ))
    (hn : (sorted.map Prod.fst).Nodup) (k : ℕ) (hk : k < sorted.length) :
    percentileMap sorted (sorted.get ⟨k, hk⟩).1 = some (pctOfRank sorted.length k) := by
  rw [percentileMap_eq_find]
  have hke : k < sorted.enum.length := by simpa [List.enum_length] using hk
  have hx : ((k, sorted.get ⟨k, hk⟩) : ℕ × (String × ℚ)) ∈ sorted.enum.reverse := by
    rw [List.mem_reverse]
    have he := List.getElem_enum sorted k hke
    simp only [List.get_eq_getElem]
    rw [← he]
    exact List.getElem_mem hke
  have hfind : sorted.enum.reverse.find?
      (fun e => (sorted.get ⟨k, hk⟩).1 = e.2.1) = some (k, sorted.get ⟨k, hk⟩) := by
    apply find_eq_some_of_unique _ _ _ hx (by simp)
    intro y hy hpy
    rw [List.mem_reverse, List.mem_enum_iff_getElem?] at hy
    obtain ⟨hylen, hyval⟩ := List.getElem?_eq_some.mp hy
    have hsym : (sorted.get ⟨k, hk⟩).1 = y.2.1 := of_decide_eq_true hpy
    have hy1 : y.1 = k := by
      have hmapy : y.1 < (sorted.map Prod.fst).length := by simpa using hylen
      have hmapk : k < (sorted.map Prod.fst).length := by simpa using hk
      have hmeq : (sorted.map Prod.fst).get ⟨y.1, hmapy⟩ =
          (sorted.map Prod.fst).get ⟨k, hmapk⟩ := by
        simp only [List.get_eq_getElem, List.getElem_map]
        rw [← hyval] at hsym
        exact hsym.symm
      exact (List.Nodup.getElem_inj_iff hn).mp hmeq
    cases y with
    | mk y1 y2 =>
      simp only at hy1
      subst hy1
      simp only [Prod.mk.injEq, true_and]
      exact hyval.symm
  rw [hfind]

theorem percentileMap_some_rank (sorted : List (String × ℚ)) (s : String) (q : ℚ)
    (h : percentileMap sorted s = some q) :
    ∃ k, k < sorted.length ∧ q = pctOfRank sorted.length k := by
  rw [percentileMap_eq_find] at h
  cases hf : sorted.enum.reverse.find? (fun e => s = e.2.1) with
  | none => rw [hf] at h; cases h
  | some e =>
    rw [hf] at h
    have he : e ∈ sorted.enum.reverse := List.mem_of_find?_eq_some hf
    rw [List.mem_reverse, List.mem_enum_iff_getElem?] at he
    obtain ⟨hlen, _⟩ := List.getElem?_eq_some.mp he
    refine ⟨e.1, by simpa [List.enum_length] using hlen, ?_⟩
    injection h with h2
    exact h2.symm

instance : IsTotal (String × ℚ) (fun a b : String × ℚ => a.2 ≤ b.2) :=
  ⟨fun a b => le_total a.2 b.2⟩

instance : IsTrans (String × ℚ) (fun a b : String × ℚ => a.2 ≤ b.2) :=
  ⟨fun _ _ _ h1 h2 => le_trans h1 h2⟩

theorem rsSorted_perm (l : List (String × ℚ)) : (rsSorted l).Perm l :=
  List.perm_insertionSort _ l

theorem rsSorted_sorted (l : List (String × ℚ)) :
    List.Sorted (fun a b : String × ℚ => a.2 ≤ b.2) (rsSorted l) :=
  List.sorted_insertionSort _ l

theorem sorted_strict_max_last (sorted : List (String × ℚ))
    (hs : List.Sorted (fun a b : String × ℚ => a.2 ≤ b.2) sorted)
    (k : ℕ) (hk : k < sorted.length)
    (hmax : ∀ j (hj : j < sorted.length), ¬ j = k →
      (sorted.get ⟨j, hj⟩).2 < (sorted.get ⟨k, hk⟩).2) :
    k = sorted.length - 1 := by
  by_contra hne
  have hj : sorted.length - 1 < sorted.length := by omega
  have hlt := hmax (sorted.length - 1) hj (by omega)
  have hkj : k < sorted.length - 1 := by omega
  have hle : (sorted.get ⟨k, hk⟩).2 ≤ (sorted.get ⟨sorted.length - 1, hj⟩).2 := by
    have := List.pairwise_iff_getElem.mp hs k (sorted.length - 1) hk hj hkj
    simpa using this
  simp only [List.get_eq_getElem] at hlt hle
  linarith

theorem collectChanges_symbols_sublist (ms : List MetricRec) :
    ((collectChanges ms).map Prod.fst).Sublist (ms.map (fun m => m.symbol)) := by
  induction ms with
  | nil => simp [collectChanges]
  | cons m t ih =>
    unfold collectChanges at ih ⊢
    rw [List.filterMap_cons]
    cases hc : m.change_1m_percent with
    | none =>
      rw [List.map_cons]
      exact ih.cons m.symbol
    | some c =>
      simp only [Option.map_some']
      rw [List.map_cons, List.map_cons]
      exact ih.cons₂ m.symbol

theorem rsSorted_symbols_nodup (ms : List MetricRec)
    (h : (ms.map (fun m => m.symbol)).Nodup) :
    ((rsSorted (collectChanges ms)).map Prod.fst).Nodup := by
  have h1 : ((collectChanges ms).map Prod.fst).Nodup :=
    List.Nodup.sublist (collectChanges_symbols_sublist ms) h
  have h2 : ((rsSorted (collectChanges ms)).map Prod.fst).Perm
      ((collectChanges ms).map Prod.fst) := (rsSorted_perm _).map _
  exact h2.symm.nodup h1

theorem rsApply_symbol (m : MetricRec) (rs : ℚ) : (rsApply m rs).symbol = m.symbol := by
  unfold rsApply
  by_cases hadr : ¬ m.adr_percent = 0 ∧ 0 < m.adr_percent
  · rw [if_pos hadr]
  · rw [if_neg hadr]

theorem rsApply_percentile (m : MetricRec) (rs : ℚ) :
    (rsApply m rs).rs_percentile = pyRound rs 2 := by
  unfold rsApply
  by_cases hadr : ¬ m.adr_percent = 0 ∧ 0 < m.adr_percent
  · rw [if_pos hadr]
  · rw [if_neg hadr]

theorem rsUpdate_symbol (pmap : String → Option ℚ) (m : MetricRec) :
    (rsUpdate pmap m).symbol = m.symbol := by
  cases hp : pmap m.symbol with
  | none => rw [rsUpdate_eq_of_none _ _ hp]
  | some q => rw [rsUpdate_eq_of_some _ _ _ hp]; exact rsApply_symbol m q

theorem rsUpdate_percentile (pmap : String → Option ℚ) (m : MetricRec) (q : ℚ)
    (h : pmap m.symbol = some q) : (rsUpdate pmap m).rs_percentile = pyRound q 2 := by
  rw [rsUpdate_eq_of_some _ _ _ h]
  exact rsApply_percentile m q

theorem mem_collectChanges (ms : List MetricRec) (m : MetricRec) (c : ℚ)
    (hm : m ∈ ms) (hc : m.change_1m_percent = some c) :
    (m.symbol, c) ∈ collectChanges ms := by
  unfold collectChanges
  rw [List.mem_filterMap]
  exact ⟨m, hm, by rw [hc]; rfl⟩

theorem pyRound2_50 : pyRound 50 2 = 50 := by with_unfolding_all decide

theorem pyRound2_100 : pyRound 100 2 = 100 := by with_unfolding_all decide

/-- C5: in the second aggregator pass (i) every record is either returned
untouched or receives an `rs_percentile` inside `[0, 100]`; (ii) when the
symbols ranked are distinct, a record whose symbol sits at ascending rank `k`
of the sorted non-null 1-month changes receives `rank/(N-1)*100` (rounded to
two places, 50 when `N = 1`); (iii) with exactly one ranked symbol the
percentile is 50; (iv) under distinct symbols, a record holding the strictly
highest non-null 1-month change receives 100 whenever `N > 1`. -/
theorem c5_theorem :
    (∀ (ms : List MetricRec) (m2 : MetricRec), m2 ∈ calculate_rs_percentiles ms →
      (∃ m ∈ ms, m2 = m) ∨ (0 ≤ m2.rs_percentile ∧ m2.rs_percentile ≤ 100))
    ∧ (∀ (ms : List MetricRec) (k : ℕ)
        (hk : k < (rsSorted (collectChanges ms)).length),
        ((rsSorted (collectChanges ms)).map Prod.fst).Nodup →
        ∀ m2 ∈ calculate_rs_percentiles ms,
          m2.symbol = ((rsSorted (collectChanges ms)).get ⟨k, hk⟩).1 →
          m2.rs_percentile =
            pyRound (pctOfRank (rsSorted (collectChanges ms)).length k) 2)
    ∧ (∀ (ms : List MetricRec) (s : String) (c : ℚ), collectChanges ms = [(s, c)] →
        ∀ m2 ∈ calculate_rs_percentiles ms, m2.symbol = s → m2.rs_percentile = 50)
    ∧ (∀ (ms : List MetricRec) (m : MetricRec) (c : ℚ),
        (ms.map (fun x => x.symbol)).Nodup → m ∈ ms →
        m.change_1m_percent = some c →
        (∀ p ∈ collectChanges ms, ¬ p.1 = m.symbol → p.2 < c) →
        1 < (collectChanges ms).length →
        ∀ m2 ∈ calculate_rs_percentiles ms, m2.symbol = m.symbol →
          m2.rs_percentile = 100) := by
  refine ⟨?_, ?_, ?_, ?_⟩
  · intro ms m2 hm2
    unfold calculate_rs_percentiles at hm2
    by_cases hch : collectChanges ms = []
    · rw [if_pos hch] at hm2
      exact Or.inl ⟨m2, hm2, rfl⟩
    · rw [if_neg hch] at hm2
      rw [List.mem_map] at hm2
      obtain ⟨m, hm1, hm2e⟩ := hm2
      subst hm2e
      cases hp : percentileMap (rsSorted (collectChanges ms)) m.symbol with
      | none =>
        exact Or.inl ⟨m, hm1, rsUpdate_eq_of_none _ _ hp⟩
      | some q =>
        right
        rw [rsUpdate_percentile _ _ q hp]
        obtain ⟨k, hk, hq⟩ := percentileMap_some_rank _ _ _ hp
        subst hq
        obtain ⟨h0, h1⟩ := pctOfRank_mem_Icc _ _ hk
        exact pyRound2_mem_Icc _ h0 h1
  · intro ms k hk hnd m2 hm2 hsym
    have hch : ¬ collectChanges ms = [] := by
      intro h
      rw [(rsSorted_perm (collectChanges ms)).length_eq, h] at hk
      simp at hk
    unfold calculate_rs_percentiles at hm2
    rw [if_neg hch] at hm2
    rw [List.mem_map] at hm2
    obtain ⟨m, hm1, hm2e⟩ := hm2
    subst hm2e
    rw [rsUpdate_symbol] at hsym
    refine rsUpdate_percentile _ _ _ ?_
    rw [hsym]
    exact percentileMap_rank _ hnd k hk
  · intro ms s c hch m2 hm2 hsym
    have hne : ¬ collectChanges ms = [] := by rw [hch]; simp
    unfold calculate_rs_percentiles at hm2
    rw [if_neg hne] at hm2
    rw [List.mem_map] at hm2
    obtain ⟨m, hm1, hm2e⟩ := hm2
    subst hm2e
    rw [rsUpdate_symbol] at hsym
    have hsrt : rsSorted (collectChanges ms) = [(s, c)] := by rw [hch]; rfl
    have hpm : percentileMap (rsSorted (collectChanges ms)) m.symbol =
        some (pctOfRank 1 0) := by
      rw [hsrt, hsym]
      show (if s = s then some (pctOfRank 1 0) else none) = some (pctOfRank 1 0)
      rw [if_pos rfl]
    rw [rsUpdate_percentile _ _ _ hpm]
    show pyRound 50 2 = 50
    exact pyRound2_50
  · intro ms m c hnd hm hc hmax hlen m2 hm2 hsym
    have hnd' : ((rsSorted (collectChanges ms)).map Prod.fst).Nodup :=
      rsSorted_symbols_nodup ms hnd
    have hmem : (m.symbol, c) ∈ rsSorted (collectChanges ms) :=
      ((rsSorted_perm (collectChanges ms)).mem_iff).mpr (mem_collectChanges ms m c hm hc)
    obtain ⟨k, hk, hke⟩ := List.mem_iff_getElem.mp hmem
    have hkg : (rsSorted (collectChanges ms)).get ⟨k, hk⟩ = (m.symbol, c) := hke
    have hmax' : ∀ j (hj : j < (rsSorted (collectChanges ms)).length), ¬ j = k →
        ((rsSorted (collectChanges ms)).get ⟨j, hj⟩).2 <
          ((rsSorted (collectChanges ms)).get ⟨k, hk⟩).2 := by
      intro j hj hne
      have hmemj : (rsSorted (collectChanges ms)).get ⟨j, hj⟩ ∈ collectChanges ms :=
        ((rsSorted_perm (collectChanges ms)).mem_iff).mp (List.get_mem _ _ hj)
      have hsymne : ¬ ((rsSorted (collectChanges ms)).get ⟨j, hj⟩).1 = m.symbol := by
        intro heq
        apply hne
        have hmapj : j < ((rsSorted (collectChanges ms)).map Prod.fst).length := by
          simpa using hj
        have hmapk : k < ((rsSorted (collectChanges ms)).map Prod.fst).length := by
          simpa using hk
        have hmeq : ((rsSorted (collectChanges ms)).map Prod.fst).get ⟨j, hmapj⟩ =
            ((rsSorted (collectChanges ms)).map Prod.fst).get ⟨k, hmapk⟩ := by
          simp only [List.get_eq_getElem, List.getElem_map]
          show ((rsSorted (collectChanges ms)).get ⟨j, hj⟩).1 =
            ((rsSorted (collectChanges ms)).get ⟨k, hk⟩).1
          rw [heq, hkg]
        exact (List.Nodup.getElem_inj_iff hnd').mp hmeq
      have := hmax _ hmemj hsymne
      rw [hkg]
      exact this
    have hk_last : k = (rsSorted (collectChanges ms)).length - 1 :=
      sorted_strict_max_last _ (rsSorted_sorted _) k hk hmax'
    have hlen' : 1 < (rsSorted (collectChanges ms)).length := by
      rw [(rsSorted_perm (collectChanges ms)).length_eq]
      exact hlen
    have hpct : pctOfRank (rsSorted (collectChanges ms)).length k = 100 := by
      rw [hk_last]
      unfold pctOfRank
      rw [if_pos hlen']
      have hcast : (((rsSorted (collectChanges ms)).length - 1 : ℕ) : ℚ) =
          ((rsSorted (collectChanges ms)).length : ℚ) - 1 := by
        have h1 : 1 ≤ (rsSorted (collectChanges ms)).length := by omega
        push_cast [h1]
        ring
      rw [hcast, div_self, one_mul]
      have h2 : (1 : ℚ) < ((rsSorted (collectChanges ms)).length : ℚ) := by
        exact_mod_cast hlen'
      linarith
    have hpm : percentileMap (rsSorted (collectChanges ms)) m.symbol = some 100 := by
      have h := percentileMap_rank _ hnd' k hk
      rw [hkg] at h
      rw [hpct] at h
      exact h
    have hch : ¬ collectChanges ms = [] := by
      intro h
      rw [h] at hlen
      simp at hlen
    unfold calculate_rs_percentiles at hm2
    rw [if_neg hch] at hm2
    rw [List.mem_map] at hm2
    obtain ⟨m3, hm31, hm32⟩ := hm2
    subst hm32
    rw [rsUpdate_symbol] at hsym
    rw [rsUpdate_percentile _ _ 100 (by rw [hsym]; exact hpm)]
    exact pyRound2_100

/-- A bare record used to instantiate the ranking pass concretely. -/
def blankRec (s : String) (chg : Option ℚ) (adr : ℚ) : MetricRec :=
  { symbol := s, date := 0, change_1d_percent := none, change_1w_percent := none,
    change_1m_percent := chg, change_3m_percent := none, change_6m_percent := none,
    change_1d_value := none, atr_14 := none, atr_percent := 0, adr_percent := adr,
    today_range_percent := 0, volume_50d_avg := none, rvol := none,
    is_volume_surge := 0, ema_10 := none, sma_20 := none, sma_50 := none,
    sma_100 := none, sma_200 := none, distance_from_ema10_percent := none,
    distance_from_sma50_percent := none, distance_from_sma200_percent := none,
    is_ma_stacked := 0, atr_extension_from_sma50 := none, lod_atr_percent := none,
    is_lod_tight := 0, darvas_20d_high := none, darvas_20d_low := none,
    darvas_position_percent := none, is_new_20d_high := 0, is_new_20d_low := 0,
    orh_proxy := 0, is_m30_reclaim := 0, vcp_score := 0, stage := 0,
    stage_detail := "", universe_up_count := 0, universe_down_count := 0,
    mcclellan_oscillator := 0, mcclellan_summation := 0, rs_ratio := 0,
    rs_momentum := 0, is_green_candle := 0, rsi_14 := none, rsi_oversold := 0,
    rsi_overbought := 0, macd_line := none, macd_signal := none,
    macd_histogram := none, is_macd_bullish_cross := 0, is_macd_bearish_cross := 0,
    bb_upper := none, bb_middle := none, bb_lower := none,
    bb_bandwidth_percent := none, is_bb_squeeze := 0, adx_14 := none,
    di_plus := none, di_minus := none, is_strong_trend := 0, rs_percentile := 50,
    vars_score := 0, varw_score := 0 }

/-- The two-record universe for the C5 witness. -/
def c5Recs : List MetricRec := [blankRec "A" (some 1) 2, blankRec "B" (some 2) 2]

/-- The output record for symbol "B" in the C5 witness run. -/
def c5Out : MetricRec :=
  rsUpdate (percentileMap (rsSorted (collectChanges c5Recs))) (blankRec "B" (some 2) 2)

/-- C5 (witness): with two ranked symbols, the strictly higher 1-month change
receives percentile 100. -/
theorem c5_witness : c5Out.rs_percentile = 100 := by
  have hmem : c5Out ∈ calculate_rs_percentiles c5Recs := by
    unfold calculate_rs_percentiles
    rw [if_neg (by with_unfolding_all decide : ¬ collectChanges c5Recs = [])]
    exact List.mem_map_of_mem _ (by simp [c5Recs])
  exact c5_theorem.2.2.2 c5Recs (blankRec "B" (some 2) 2) 2
    (by with_unfolding_all decide) (by simp [c5Recs]) rfl
    (by with_unfolding_all decide) (by with_unfolding_all decide)
    c5Out hmem (by unfold c5Out; rw [rsUpdate_symbol])

end Screener
